import Mathlib

/-!
Verification of the directory-traversal and reporting engine of the
reposketch repository (src/traverseRepository.js) against its
natural-language specification.

The JavaScript source is shallowly embedded: the filesystem is a static
inductive tree (`FSEntry`), every synchronous filesystem call is modelled by
a total lookup on that tree, caught JavaScript exceptions are modelled with
`Except String`, and each traversal function of the source becomes a Lean
function over the tree.  Console/colour styling is cosmetic (the export
loggers strip the colour codes) and is omitted from the emitted lines.
-/

namespace RepoSketch

/-- A static snapshot of a filesystem subtree.
`file size content readErr`: a regular file; `readErr = some msg` models
`fs.readFileSync` throwing (binary/permission), `size` models `stats.size`.
`dir children readErr`: a directory; `readErr = some msg` models
`fs.readdirSync` throwing (e.g. permission denied).
`broken msg`: a directory entry whose `fs.statSync` throws with message
`msg` (e.g. a dangling symlink or an entry that disappeared). -/
inductive FSEntry where
  | file (size : Nat) (content : String) (readErr : Option String)
  | dir (children : List (String × FSEntry)) (readErr : Option String)
  | broken (msg : String)

/-- The `directoryPath` argument of the public operations: JavaScript lets a
caller pass a non-string value, which the sources guard against
(`typeof directoryPath !== "string"`); `nonstr` models any such value
(including `null`/`undefined`, which are also falsy). -/
inductive PathArg where
  | nonstr
  | str (s : String)
deriving Repr, DecidableEq

/-- Result object of `printTree` (traverseRepository.js line 37):
`{ success: true, error: null }`, the error being a JavaScript `Error`
modelled by its message. -/
structure TreeResult where
  success : Bool
  error : Option String
deriving Repr, DecidableEq

/-- `options` of `printTree` with the defaults of lines 26-34.
`pfx` is the source's `prefix` option (the word itself is unusable as a Lean
field name here). -/
structure TreeOptions where
  pfx : String
  maxDepth : Int
  exclude : List String
  showHidden : Bool
  showSize : Bool
  currentDepth : Nat
deriving Repr, DecidableEq

/-- The destructuring defaults of `printTree` (lines 26-34). -/
def defaultTreeOptions : TreeOptions :=
  { pfx := "", maxDepth := -1, exclude := [], showHidden := false,
    showSize := false, currentDepth := 0 }

/-- `name.startsWith(".")` — the hidden-entry test used by all the walkers
(implemented on the character list so that it evaluates by kernel
reduction). -/
def startsWithDot (s : String) : Bool :=
  match s.data with
  | [] => false
  | c :: _ => c == '.'

/-- `String.prototype.includes(c)` for a single character, used by the
`pattern.includes("*")` test (character-list implementation, see
`startsWithDot`). -/
def containsChar (s : String) (c : Char) : Bool :=
  s.data.contains c

/-- Character-list lowercasing, modelling `String.prototype.toLowerCase`. -/
def lowerStr (s : String) : String :=
  String.mk (s.data.map Char.toLower)

/-- Split a character list at `/` (helper for `basename`). -/
def splitSlash : List Char → List (List Char)
  | [] => [[]]
  | c :: rest =>
      let r := splitSlash rest
      if c == '/' then [] :: r
      else
        match r with
        | [] => [[c]]
        | seg :: segs => (c :: seg) :: segs

/-- `path.basename`, used only to label the root line: the last non-empty
`/`-separated component (path normalisation is irrelevant to the claims). -/
def basename (s : String) : String :=
  (((splitSlash s.data).filter (fun t => !t.isEmpty)).map String.mk).getLastD s

/-- `String.prototype.repeat`-style helper for the `"-".repeat(80)` and
`"=".repeat(80)` separators. -/
def repeatChar (c : Char) (n : Nat) : String :=
  String.mk (List.replicate n c)

/-- `formatFileSize` (lines 184-191).  The float computation
`Math.floor(Math.log(bytes)/Math.log(1024))` is modelled exactly as the
largest `i` with `1024^i ≤ bytes` (i.e. `Nat.log 1024`), and `toFixed(2)` is
modelled by truncation to two decimals; no claim depends on the digits. -/
def formatFileSize (bytes : Nat) : String :=
  if bytes == 0 then "0 B"
  else
    let units := ["B", "KB", "MB", "GB", "TB", "PB"]
    let i := ((List.range 7).filter (fun j => 1024 ^ j ≤ bytes)).length - 1
    let scaled := bytes * 100 / 1024 ^ i
    let fp := scaled % 100
    toString (scaled / 100) ++ "." ++ (if fp < 10 then "0" else "") ++ toString fp
      ++ " " ++ units.getD i "undefined"

/-- `path.extname` lower-level model: the suffix of `name` starting at its
last `.`, empty when there is no `.` or the only `.` is the leading
character (Node treats a leading dot as a hidden-file marker, not an
extension). -/
def extname (name : String) : String :=
  let cs := name.data
  let idxs := (List.range cs.length).filter (fun i => cs.getD i ' ' == '.')
  match idxs.getLast? with
  | none => ""
  | some 0 => ""
  | some i => String.mk (cs.drop i)

/-- `fs.statSync` on a directory entry: look the name up among the children
returned by `fs.readdirSync` of the enclosing directory. -/
def childStat (children : List (String × FSEntry)) (name : String) : Option FSEntry :=
  (children.find? (fun p => p.1 == name)).map (fun p => p.2)

def FSEntry.isDirE : FSEntry → Bool
  | .dir _ _ => true
  | _ => false

def FSEntry.isBrokenE : FSEntry → Bool
  | .broken _ => true
  | _ => false

/-- `String.prototype.localeCompare` under the default locale, as used by
the sibling comparator (line 107): case-insensitive primary comparison
(on the lowercased strings), with a case tiebreak placing the
lowercase-form first, as ICU does.  Exact ICU collation of accents etc. is
approximated by code-point order; no claim depends on the collation
details, only on this being a total, antisymmetric comparison. -/
def localeCompare (a b : String) : Int :=
  if lowerStr a < lowerStr b then -1
  else if lowerStr b < lowerStr a then 1
  else if a < b then 1
  else if b < a then -1
  else 0

/-- One step of a stable insertion sort with a JavaScript-style comparator:
the new element is placed before the first element it must precede
(`cmp x y < 0`) and after every element comparing `0` or negative the other
way, which is exactly the stable behaviour mandated for
`Array.prototype.sort` since ES2019. -/
def insertCmp (cmp : α → α → Int) (x : α) : List α → List α
  | [] => [x]
  | y :: ys => if cmp x y < 0 then x :: y :: ys else y :: insertCmp cmp x ys

/-- `Array.prototype.sort(cmp)`: modelled as a stable sort (elements are
inserted left to right, so ties keep their original relative order).  For a
consistent comparator every stable sort produces the same list as V8's
TimSort; the counterexamples below that involve an inconsistent comparator
use two-element arrays, on which every sort performs the single comparison
`cmp a b`. -/
def sortCmp (cmp : α → α → Int) (l : List α) : List α :=
  l.foldl (fun acc x => insertCmp cmp x acc) []

/-- The sibling comparator of `printTree` (lines 98-112): stat both names;
any stat failure is caught and yields `0`; otherwise directories sort
before files and `localeCompare` breaks the tie.  `none` (name vanished
between listing and stat) also throws in the source, hence `0`. -/
def treeCmp (children : List (String × FSEntry)) (a b : String) : Int :=
  match childStat children a, childStat children b with
  | some ea, some eb =>
      if ea.isBrokenE || eb.isBrokenE then 0
      else if ea.isDirE && !eb.isDirE then -1
      else if !ea.isDirE && eb.isDirE then 1
      else localeCompare a b
  | _, _ => 0

/-- The entry filter of `printTree` (lines 83-95): hidden names are dropped
unless `showHidden`, and a name is dropped when it is *exactly* contained in
`exclude` (`exclude.includes(item)` — note: no wildcard interpretation
here). -/
def visibleItem (showHidden : Bool) (exclude : List String) (item : String) : Bool :=
  !(!showHidden && startsWithDot item) && !(exclude.contains item)

mutual

/-- The body of `printTree` (lines 59-168) for a call whose path has already
passed the exists/is-directory validation and resolved to a directory with
the given `children` and readability: depth guard (lines 60-62), root-name
line at depth 0 (lines 65-68), the `readdirSync` failure branch
(lines 72-80, non-fatal: one error line, `success=false`, no descent),
filtering (83-95), sorting (98-112), the item loop (117-161) and the
`[empty]` marker (164-166).  The result's `success` stays `true` in the
main branch: the loop at lines 152-155 copies a failing child's `error` but
deliberately leaves `success` untouched.
The extra `fuel` argument makes the recursion structural; `printTree`
supplies fuel strictly exceeding the recursion depth actually used, so the
fuel-zero branch (which returns the same value as the depth-guard branch)
is never reached from the public entry point, and every theorem below
quantifies over the fuel. -/
def renderDirF (fuel : Nat) (name : String) (children : List (String × FSEntry))
    (readErr : Option String) (opts : TreeOptions) : List String × TreeResult :=
  match fuel with
  | 0 => ([], { success := true, error := none })
  | fuel + 1 =>
    if opts.maxDepth ≥ 0 ∧ (opts.currentDepth : Int) > opts.maxDepth then
      ([], { success := true, error := none })
    else
      let rootLines := if opts.currentDepth = 0 then [opts.pfx ++ name ++ "/"] else []
      match readErr with
      | some msg =>
          (rootLines ++ [opts.pfx ++ "├── [Error reading directory: " ++ msg ++ "]"],
           { success := false, error := some msg })
      | none =>
          let items := (children.map (fun p => p.1)).filter
            (visibleItem opts.showHidden opts.exclude)
          let r := renderItemsF fuel children (sortCmp (treeCmp children) items) opts
          let emptyLines := if items.isEmpty then [opts.pfx ++ "└── [empty]"] else []
          (rootLines ++ r.1 ++ emptyLines, { success := true, error := r.2 })

/-- The item loop of `printTree` (lines 117-161) over the filtered, sorted
names: each item is stat-ed (a failure yields one inline error line and the
loop continues, lines 157-160), files get their line with the optional size
suffix, directories get their line and a recursive call whose failure only
overwrites the `error` field (lines 152-155, later failures overwriting
earlier ones). -/
def renderItemsF (fuel : Nat) (children : List (String × FSEntry)) (items : List String)
    (opts : TreeOptions) : List String × Option String :=
  match fuel with
  | 0 => ([], none)
  | fuel + 1 =>
    match items with
    | [] => ([], none)
    | item :: rest =>
        let isLast := rest.isEmpty
        let connector := if isLast then "└── " else "├── "
        let r1 : List String × Option String :=
          match childStat children item with
          | none =>
              ([opts.pfx ++ connector ++ item
                  ++ " [Error: ENOENT: no such file or directory]"], none)
          | some (.broken msg) =>
              ([opts.pfx ++ connector ++ item ++ " [Error: " ++ msg ++ "]"], none)
          | some (.file sz _ _) =>
              let sizeInfo := if opts.showSize then " (" ++ formatFileSize sz ++ ")" else ""
              ([opts.pfx ++ connector ++ item ++ sizeInfo], none)
          | some (.dir sub subErr) =>
              let newOpts : TreeOptions :=
                { opts with
                    pfx := opts.pfx ++ (if isLast then "    " else "│   "),
                    currentDepth := opts.currentDepth + 1 }
              let rsub := renderDirF fuel item sub subErr newOpts
              ((opts.pfx ++ connector ++ item ++ "/") :: rsub.1,
               if rsub.2.success then none else rsub.2.error)
        let r2 := renderItemsF fuel children rest opts
        (r1.1 ++ r2.1, r2.2 <|> r1.2)

end

mutual

/-- Fuel bound for a subtree: strictly exceeds the recursion depth the
fuelled walkers can use below the entry. -/
def entryFuel : FSEntry → Nat
  | .file _ _ _ => 0
  | .broken _ => 0
  | .dir children _ => 1 + childrenFuel children

/-- Fuel bound for a children list (see `entryFuel`). -/
def childrenFuel : List (String × FSEntry) → Nat
  | [] => 1
  | (_, e) :: rest => 2 + entryFuel e + childrenFuel rest

end

/-- Models a JavaScript `catch` handler that always recovers: the `Except`
error (a thrown JavaScript `Error`, identified by its message) is mapped to
a normal return value. -/
def catchWith (h : String → α) : Except String α → Except String α
  | .error m => .ok (h m)
  | .ok a => .ok a

/-- The `try` body of `printTree` (lines 39-168): the validation throws of
lines 41-43 (non-string or falsy path), 49-51 (`existsSync` false — also
the case for a dangling symlink, where `existsSync` returns `false`) and
54-57 (not a directory).  `path.resolve` is modelled as the identity on the
supplied string (resolution only affects the message text).  Once the path
is a readable-or-not directory the body cannot throw (the `readdirSync`
failure has its own inner try/catch, modelled inside `renderDirF`), so the
body returns the rendered lines and result.  The fuel handed to `renderDirF`
strictly exceeds the depth of the (finite) tree. -/
def printTreeBody (p : PathArg) (root : Option FSEntry) (opts : TreeOptions) :
    Except String (List String × TreeResult) :=
  match p with
  | .nonstr => .error "Invalid directory path provided"
  | .str s =>
      if s = "" then .error "Invalid directory path provided"
      else
        match root with
        | none => .error ("Directory does not exist: " ++ s)
        | some (.broken _) => .error ("Directory does not exist: " ++ s)
        | some (.file _ _ _) => .error ("Path is not a directory: " ++ s)
        | some (.dir children readErr) =>
            .ok (renderDirF (childrenFuel children) (basename s) children readErr opts)

/-- `printTree` with its function-level catch (lines 169-176): a thrown
validation error is logged as one `Error: …` line and turned into a
`{ success: false, error }` result.  This is the exception-level view of the
public operation; it is `Except`-valued so that "never throws" is a
statement about it rather than a typing accident. -/
def printTreeE (p : PathArg) (root : Option FSEntry) (opts : TreeOptions) :
    Except String (List String × TreeResult) :=
  catchWith
    (fun msg => (["Error: " ++ msg], { success := false, error := some msg }))
    (printTreeBody p root opts)

/-- The public `printTree` (lines 24-177): collected logger lines (colour
codes omitted — the export loggers strip them) plus the result object.
The `.error` fallback repeats the catch handler; it is unreachable because
`printTreeE` recovers from every throw. -/
def printTree (p : PathArg) (root : Option FSEntry) (opts : TreeOptions) :
    List String × TreeResult :=
  match printTreeE p root opts with
  | .ok r => r
  | .error msg => (["Error: " ++ msg], { success := false, error := some msg })

/-- Decidable equality for `Except` results (used to evaluate the pattern
matcher on concrete inputs). -/
instance {ε α : Type} [DecidableEq ε] [DecidableEq α] : DecidableEq (Except ε α) := by
  intro x y
  cases x with
  | error a =>
      cases y with
      | error b =>
          cases decEq a b with
          | isTrue h => exact isTrue (by rw [h])
          | isFalse h => exact isFalse (by simp [h])
      | ok b => exact isFalse (by simp)
  | ok a =>
      cases y with
      | error b => exact isFalse (by simp)
      | ok b =>
          cases decEq a b with
          | isTrue h => exact isTrue (by rw [h])
          | isFalse h => exact isFalse (by simp [h])

/-- The glob-to-regex substitution of `minimatch` (line 662):
`pattern.replace(/\./g, "\\.").replace(/\*/g, ".*")`.  The two sequential
global replaces touch disjoint characters (the first rewrites only the
original `.`s, the second only the original `*`s, and neither replacement
is re-scanned), so they equal this single per-character expansion. -/
def substChars : List Char → List Char
  | [] => []
  | c :: rest =>
      if c == '.' then '\\' :: '.' :: substChars rest
      else if c == '*' then '.' :: '*' :: substChars rest
      else c :: substChars rest

/-- An atom of the JavaScript regular-expression fragment reachable from
`minimatch`: a literal character or the `.` wildcard. -/
inductive RAtom where
  | lit (c : Char)
  | anyc
deriving Repr, DecidableEq

/-- A quantifier on a regex atom: exactly one, `*`, `+` or `?`. -/
inductive RQuant where
  | one
  | star
  | plus
  | opt
deriving Repr, DecidableEq

/-- Characters that `new RegExp` does not accept as a bare atom in this
model.  JavaScript gives `(`/`)`/`[`/`]`/`|`/`^`/`$` (and sometimes the
brace characters) structural meaning; the model conservatively reports a
syntax error for them, which agrees with JavaScript on every pattern used
below (e.g. an unmatched `(` or `[` is a `SyntaxError` in JavaScript too).
The claims' theorems only ever evaluate the parser on patterns without
these characters, plus the explicit counterexample where JavaScript also
throws. -/
def regexMeta (c : Char) : Bool :=
  c == '(' || c == ')' || c == '[' || c == ']' || c == '\x7b' || c == '\x7d' ||
    c == '|' || c == '^' || c == '$' || c == '\\' || c == '+' || c == '?'

/-- A lexical token of the regex fragment: an atom or a quantifier
character. -/
inductive RTok where
  | atom (a : RAtom)
  | quant (q : RQuant)
deriving Repr, DecidableEq

mutual

/-- Tokenizer for the regex fragment produced by `minimatch`'s
substitution: an escaped character or `.` or a plain character is an atom;
`*`, `+`, `?` are quantifier tokens; the structural characters listed in
`regexMeta` are rejected (see there).  Returns the JavaScript
`SyntaxError` (as its message) where `new RegExp` throws. -/
def rtokens : List Char → Except String (List RTok)
  | [] => .ok []
  | c :: rest =>
      if c == '\\' then escTok rest
      else if c == '.' then (rtokens rest).map (fun ts => RTok.atom RAtom.anyc :: ts)
      else if c == '*' then (rtokens rest).map (fun ts => RTok.quant RQuant.star :: ts)
      else if c == '+' then (rtokens rest).map (fun ts => RTok.quant RQuant.plus :: ts)
      else if c == '?' then (rtokens rest).map (fun ts => RTok.quant RQuant.opt :: ts)
      else if regexMeta c then
        .error "Invalid regular expression: unsupported group, class, anchor or brace"
      else (rtokens rest).map (fun ts => RTok.atom (RAtom.lit c) :: ts)

/-- The continuation of `rtokens` after a backslash: the next character is
taken literally; a trailing backslash is a `SyntaxError`. -/
def escTok : List Char → Except String (List RTok)
  | [] => .error "Invalid regular expression: \\ at end of pattern"
  | d :: rest' => (rtokens rest').map (fun ts => RTok.atom (RAtom.lit d) :: ts)

end

/-- Attach each quantifier token to the atom it follows; a quantifier with
no preceding atom is JavaScript's "nothing to repeat" `SyntaxError`. -/
def pairTokens : List RTok → Except String (List (RAtom × RQuant))
  | [] => .ok []
  | .quant _ :: _ => .error "Invalid regular expression: nothing to repeat"
  | .atom a :: .quant q :: rest => (pairTokens rest).map (fun es => (a, q) :: es)
  | .atom a :: [] => .ok [(a, RQuant.one)]
  | .atom a :: .atom b :: rest =>
      (pairTokens (RTok.atom b :: rest)).map (fun es => (a, RQuant.one) :: es)

/-- Parser for the regex fragment produced by `minimatch`'s substitution:
a sequence of atoms, each with an optional `*`/`+`/`?` quantifier.  The
`^...$` anchors that `minimatch` wraps around the body are not part of the
parsed text; the matcher below is a full-match test, which is
equivalent. -/
def parseBody (cs : List Char) : Except String (List (RAtom × RQuant)) :=
  match rtokens cs with
  | .error msg => .error msg
  | .ok ts => pairTokens ts

/-- JavaScript line terminators: without the `s` flag, `.` matches any
character except these. -/
def lineTerminator (c : Char) : Bool :=
  c == '\n' || c == '\r' || c == '\u2028' || c == '\u2029'

/-- Does one regex atom match one character (`.` excludes line
terminators, as in JavaScript without the `s` flag). -/
def amatch : RAtom → Char → Bool
  | .lit d, c => d == c
  | .anyc, c => !lineTerminator c

/-- Full-match of a quantified-atom sequence against a character list, the
language-membership semantics of `RegExp.prototype.test` on
`^...$`-anchored patterns.  The fuel makes the recursion structural; every
step shrinks `regex length + string length`, so `jsTest`'s fuel is always
sufficient. -/
def rmatchF : Nat → List (RAtom × RQuant) → List Char → Bool
  | 0, _, _ => false
  | _ + 1, [], s => s.isEmpty
  | _ + 1, (_, .one) :: _, [] => false
  | f + 1, (a, .one) :: rest, c :: cs => amatch a c && rmatchF f rest cs
  | f + 1, (a, .star) :: rest, s =>
      rmatchF f rest s ||
        (match s with
         | [] => false
         | c :: cs => amatch a c && rmatchF f ((a, .star) :: rest) cs)
  | _ + 1, (_, .plus) :: _, [] => false
  | f + 1, (a, .plus) :: rest, c :: cs => amatch a c && rmatchF f ((a, .star) :: rest) cs
  | f + 1, (a, .opt) :: rest, s =>
      rmatchF f rest s ||
        (match s with
         | [] => false
         | c :: cs => amatch a c && rmatchF f rest cs)

/-- `regex.test(string)` for a parsed body (see `rmatchF` for the fuel). -/
def jsTest (es : List (RAtom × RQuant)) (s : List Char) : Bool :=
  rmatchF (es.length + s.length + 1) es s

/-- `minimatch` (lines 660-666): substitute the glob pattern into an
anchored regular expression and test the string against it; constructing
the `RegExp` throws on the patterns whose substitution is not valid regex
syntax, modelled by the `Except` error. -/
def minimatchE (s pattern : String) : Except String Bool :=
  (parseBody (substChars pattern.data)).map (fun es => jsTest es s.data)

/-- One pattern of the exclusion test of `collectFileContents`
(lines 382-388): wildcard patterns (containing `*`) go through `minimatch`,
all others by exact string equality. -/
def patMatch (item pattern : String) : Except String Bool :=
  if containsChar pattern '*' then minimatchE item pattern
  else .ok (item == pattern)

/-- `exclude.some(pattern => …)` (lines 381-389) with JavaScript's
left-to-right short-circuit: a thrown `SyntaxError` from a malformed
pattern aborts the test (and, in context, the enclosing directory loop). -/
def someExcluded (exclude : List String) (item : String) : Except String Bool :=
  match exclude with
  | [] => .ok false
  | p :: ps =>
      match patMatch item p with
      | .error msg => .error msg
      | .ok true => .ok true
      | .ok false => someExcluded ps item

/-- `ContentCounts` (line 361): `{ processed, skipped }`. -/
structure Counts where
  processed : Nat
  skipped : Nat
deriving Repr, DecidableEq

/-- Options of `exportFileContentsToFile` with the defaults of
lines 268-275 (`extensions = none` models `null` = all extensions). -/
structure ContentsOptions where
  exclude : List String
  showHidden : Bool
  maxDepth : Int
  extensions : Option (List String)
  maxFileSize : Nat
  separator : String
deriving Repr, DecidableEq

/-- The default separator of line 274: a newline, eighty dashes, a
newline. -/
def defaultSeparator : String :=
  "\n" ++ repeatChar '-' 80 ++ "\n"

/-- The destructuring defaults of `exportFileContentsToFile`
(lines 268-275): no exclusions, hidden files skipped, unlimited depth, all
extensions, one-megabyte file-size limit. -/
def defaultContentsOptions : ContentsOptions :=
  { exclude := [], showHidden := false, maxDepth := -1, extensions := none,
    maxFileSize := 1048576, separator := defaultSeparator }

/-- The per-file part of the `collectFileContents` loop body
(lines 411-449), for an item whose stat succeeded and is a file:
first the size check (lines 413-423: strictly larger than `maxFileSize`
emits the `[FILE TOO LARGE: …]` placeholder block and counts the file as
skipped, without the content ever being consulted), then the extension
allow-list check (lines 426-430: silent skip — a count but no block), then
the read (lines 433-449: read failure emits the `[UNABLE TO READ: …]`
placeholder, success appends the `File:` block with the full content).
Returns the blocks appended to the artifact and the counter delta. -/
def handleFile (item relPath : String) (sz : Nat) (content : String)
    (readErrF : Option String) (opts : ContentsOptions) : List String × Counts :=
  if sz > opts.maxFileSize then
    (["File: " ++ relPath ++ "\n[FILE TOO LARGE: " ++ formatFileSize sz ++ "]\n"
        ++ opts.separator],
     { processed := 0, skipped := 1 })
  else
    let ext := lowerStr (extname item)
    let extRejected :=
      match opts.extensions with
      | some exts => !exts.isEmpty && !exts.contains ext
      | none => false
    if extRejected then
      ([], { processed := 0, skipped := 1 })
    else
      match readErrF with
      | some msg =>
          (["File: " ++ relPath ++ "\n[UNABLE TO READ: " ++ msg ++ "]\n"
              ++ opts.separator],
           { processed := 0, skipped := 1 })
      | none =>
          (["File: " ++ relPath ++ "\n\n" ++ content ++ "\n" ++ opts.separator],
           { processed := 1, skipped := 0 })

mutual

/-- `collectFileContents` (lines 349-468) on a directory with the given
children and readability: depth guard (lines 363-366), the directory-level
try/catch (368-465, a `readdirSync` failure — or an exception escaping the
loop, i.e. a malformed exclusion pattern — appends one `Directory: …
[ERROR: …]` block and returns the counts accumulated so far).  The fuel
plays the same role as in `renderDirF`. -/
def collectDirF (fuel : Nat) (children : List (String × FSEntry))
    (readErr : Option String) (dirPath : String) (opts : ContentsOptions)
    (depth : Nat) : List String × Counts :=
  match fuel with
  | 0 => ([], { processed := 0, skipped := 0 })
  | fuel + 1 =>
    if opts.maxDepth ≥ 0 ∧ (depth : Int) > opts.maxDepth then
      ([], { processed := 0, skipped := 0 })
    else
      match readErr with
      | some msg =>
          (["Directory: " ++ dirPath ++ "\n[ERROR: " ++ msg ++ "]\n" ++ opts.separator],
           { processed := 0, skipped := 0 })
      | none =>
          match collectItemsF fuel children (children.map (fun p => p.1)) dirPath opts depth with
          | (blocks, counts, none) => (blocks, counts)
          | (blocks, counts, some msg) =>
              (blocks ++ ["Directory: " ++ dirPath ++ "\n[ERROR: " ++ msg ++ "]\n"
                  ++ opts.separator],
               counts)

/-- The item loop of `collectFileContents` (lines 373-458), in raw
`readdirSync` order: hidden skip (375-378, counted), exclusion test
(381-392, counted when matched; a thrown pattern `SyntaxError` aborts the
loop, reported in the third component for the enclosing catch), stat
(397-457: failure appends a `Path: … [ERROR: …]` block and counts a skip),
directories recurse and their counts are summed (401-409), files go
through `handleFile`. -/
def collectItemsF (fuel : Nat) (children : List (String × FSEntry))
    (items : List String) (dirPath : String) (opts : ContentsOptions)
    (depth : Nat) : List String × Counts × Option String :=
  match fuel with
  | 0 => ([], { processed := 0, skipped := 0 }, none)
  | fuel + 1 =>
    match items with
    | [] => ([], { processed := 0, skipped := 0 }, none)
    | item :: rest =>
        if !opts.showHidden && startsWithDot item then
          let r := collectItemsF fuel children rest dirPath opts depth
          (r.1, { processed := r.2.1.processed, skipped := r.2.1.skipped + 1 }, r.2.2)
        else
          match someExcluded opts.exclude item with
          | .error msg => ([], { processed := 0, skipped := 0 }, some msg)
          | .ok true =>
              let r := collectItemsF fuel children rest dirPath opts depth
              (r.1, { processed := r.2.1.processed, skipped := r.2.1.skipped + 1 }, r.2.2)
          | .ok false =>
              let fullPath := dirPath ++ "/" ++ item
              let r1 : List String × Counts :=
                match childStat children item with
                | none =>
                    (["Path: " ++ fullPath ++ "\n[ERROR: ENOENT: no such file or directory]\n"
                        ++ opts.separator],
                     { processed := 0, skipped := 1 })
                | some (.broken msg) =>
                    (["Path: " ++ fullPath ++ "\n[ERROR: " ++ msg ++ "]\n" ++ opts.separator],
                     { processed := 0, skipped := 1 })
                | some (.dir sub subErr) =>
                    collectDirF fuel sub subErr fullPath opts (depth + 1)
                | some (.file sz content readErrF) =>
                    handleFile item fullPath sz content readErrF opts
              let r := collectItemsF fuel children rest dirPath opts depth
              (r1.1 ++ r.1,
               { processed := r1.2.processed + r.2.1.processed,
                 skipped := r1.2.skipped + r.2.1.skipped },
               r.2.2)

end

/-- Result object of `exportFileContentsToFile` (lines 330-342). -/
structure ContentsResult where
  success : Bool
  filePath : Option String
  fileCount : Option Counts
  error : Option String
  message : Option String
deriving Repr, DecidableEq

/-- The `try` body of `exportFileContentsToFile` (lines 266-334):
validation throws for a non-string/empty path (278-280), a missing root
(287-289) and a non-directory root (292-295); the initial
`writeFileSync` of the header (298-302) throws when the output artifact
cannot be created (`writeErr`); then `collectFileContents` runs (it
swallows its own errors) and the trailer is appended.  Returns the chunks
written to the artifact, in append order, plus the result object. -/
def exportFileContentsBody (p : PathArg) (root : Option FSEntry)
    (outputPath : String) (writeErr : Option String) (opts : ContentsOptions) :
    Except String (List String × ContentsResult) :=
  match p with
  | .nonstr => .error "Invalid directory path provided"
  | .str s =>
      if s = "" then .error "Invalid directory path provided"
      else
        match root with
        | none => .error ("Directory does not exist: " ++ s)
        | some (.broken _) => .error ("Directory does not exist: " ++ s)
        | some (.file _ _ _) => .error ("Path is not a directory: " ++ s)
        | some (.dir children readErr) =>
            match writeErr with
            | some msg => .error msg
            | none =>
                let header := "File contents from: " ++ s ++ "\n" ++ opts.separator
                let r := collectDirF (childrenFuel children) children readErr s opts 0
                let trailer := opts.separator ++ "End of file contents\nTotal files processed: "
                  ++ toString r.2.processed ++ "\nFiles skipped: " ++ toString r.2.skipped ++ "\n"
                .ok (header :: r.1 ++ [trailer],
                     { success := true, filePath := some outputPath,
                       fileCount := some r.2, error := none, message := none })

/-- `exportFileContentsToFile` with its catch (lines 335-342). -/
def exportFileContentsToFileE (p : PathArg) (root : Option FSEntry)
    (outputPath : String) (writeErr : Option String) (opts : ContentsOptions) :
    Except String (List String × ContentsResult) :=
  catchWith
    (fun msg =>
      ([], { success := false, filePath := none, fileCount := none,
             error := some msg,
             message := some ("Failed to export file contents: " ++ msg) }))
    (exportFileContentsBody p root outputPath writeErr opts)

/-- The statistics record of `generateDirectorySummary` (lines 492-498):
`fileTypes` is the `{ [ext]: { count, size } }` object as an
insertion-ordered association list `(ext, count, size)`; `largestFiles` is
the `{ path, size }` array as `(path, size)` pairs. -/
structure DirStats where
  totalFiles : Nat
  totalDirectories : Nat
  totalSize : Nat
  fileTypes : List (String × Nat × Nat)
  largestFiles : List (String × Nat)
deriving Repr, DecidableEq

/-- The freshly initialised statistics of lines 492-498. -/
def initStats : DirStats :=
  { totalFiles := 0, totalDirectories := 0, totalSize := 0,
    fileTypes := [], largestFiles := [] }

/-- The `(a, b) => b.size - a.size` comparator used to keep `largestFiles`
sorted descending by size (lines 553 and 645). -/
def sizeDescCmp (a b : String × Nat) : Int :=
  (b.2 : Int) - (a.2 : Int)

/-- The bounded-retention update of `largestFiles` (lines 638-647): push
the new file, and when the list now exceeds twenty entries re-sort it
descending by size and truncate to twenty. -/
def updateLargest (lf : List (String × Nat)) (f : String × Nat) : List (String × Nat) :=
  let l := lf ++ [f]
  if l.length > 20 then (sortCmp sizeDescCmp l).take 20 else l

/-- The `.sort((a, b) => b.size - a.size).slice(0, 10)` display selection
of the largest files (lines 552-554). -/
def displayLargest (lf : List (String × Nat)) : List (String × Nat) :=
  (sortCmp sizeDescCmp lf).take 10

/-- Bump the per-extension `{ count, size }` bucket (lines 630-635),
keeping JavaScript's object-property insertion order. -/
def bumpType (ft : List (String × Nat × Nat)) (ext : String) (sz : Nat) :
    List (String × Nat × Nat) :=
  match ft with
  | [] => [(ext, 1, sz)]
  | (e, c, s) :: rest =>
      if e == ext then (e, c + 1, s + sz) :: rest
      else (e, c, s) :: bumpType rest ext sz

/-- The options consumed by `collectDirectoryStats` (line 587). -/
structure StatsOptions where
  exclude : List String
  showHidden : Bool
  maxDepth : Int
deriving Repr, DecidableEq

mutual

/-- `collectDirectoryStats` (lines 586-656) on a directory with the given
children and readability, threading the mutated `stats` object as an
accumulator: depth guard (589-592), silent swallowing of a `readdirSync`
failure (653-655).  The fuel plays the same role as in `renderDirF`. -/
def statsDirF (fuel : Nat) (children : List (String × FSEntry))
    (readErr : Option String) (dirPath : String) (opts : StatsOptions)
    (depth : Nat) (st : DirStats) : DirStats :=
  match fuel with
  | 0 => st
  | fuel + 1 =>
    if opts.maxDepth ≥ 0 ∧ (depth : Int) > opts.maxDepth then st
    else
      match readErr with
      | some _ => st
      | none => statsItemsF fuel children (children.map (fun p => p.1)) dirPath opts depth st

/-- The item loop of `collectDirectoryStats` (lines 599-652), in raw
`readdirSync` order: hidden skip (601-603), exact-name exclusion only
(606-608 — no wildcard matching in this walker), silent skip of stat
failures (649-651); a directory bumps `totalDirectories` and recurses
(615-623); a file bumps `totalFiles`/`totalSize`, its extension bucket
(626-635, lowercased, empty extension bucketed as `(no extension)`), and
the bounded `largestFiles` list (638-647). -/
def statsItemsF (fuel : Nat) (children : List (String × FSEntry))
    (items : List String) (dirPath : String) (opts : StatsOptions)
    (depth : Nat) (st : DirStats) : DirStats :=
  match fuel with
  | 0 => st
  | fuel + 1 =>
    match items with
    | [] => st
    | item :: rest =>
        if !opts.showHidden && startsWithDot item then
          statsItemsF fuel children rest dirPath opts depth st
        else if opts.exclude.contains item then
          statsItemsF fuel children rest dirPath opts depth st
        else
          let fullPath := dirPath ++ "/" ++ item
          let st' : DirStats :=
            match childStat children item with
            | none => st
            | some (.broken _) => st
            | some (.dir sub subErr) =>
                statsDirF fuel sub subErr fullPath opts (depth + 1)
                  { st with totalDirectories := st.totalDirectories + 1 }
            | some (.file sz _ _) =>
                let ext0 := lowerStr (extname item)
                let ext := if ext0 == "" then "(no extension)" else ext0
                { st with
                    totalFiles := st.totalFiles + 1,
                    totalSize := st.totalSize + sz,
                    fileTypes := bumpType st.fileTypes ext sz,
                    largestFiles := updateLargest st.largestFiles (fullPath, sz) }
          statsItemsF fuel children rest dirPath opts depth st'

end

mutual

/-- The files visited by `collectDirectoryStats`, in visit order, as
`(path, size)` pairs: same guards and traversal as `statsDirF`, recorded
instead of aggregated (the reference list for the largest-files
theorems). -/
def visitedDirF (fuel : Nat) (children : List (String × FSEntry))
    (readErr : Option String) (dirPath : String) (opts : StatsOptions)
    (depth : Nat) : List (String × Nat) :=
  match fuel with
  | 0 => []
  | fuel + 1 =>
    if opts.maxDepth ≥ 0 ∧ (depth : Int) > opts.maxDepth then []
    else
      match readErr with
      | some _ => []
      | none => visitedItemsF fuel children (children.map (fun p => p.1)) dirPath opts depth

/-- Item-loop companion of `visitedDirF` (see there). -/
def visitedItemsF (fuel : Nat) (children : List (String × FSEntry))
    (items : List String) (dirPath : String) (opts : StatsOptions)
    (depth : Nat) : List (String × Nat) :=
  match fuel with
  | 0 => []
  | fuel + 1 =>
    match items with
    | [] => []
    | item :: rest =>
        if !opts.showHidden && startsWithDot item then
          visitedItemsF fuel children rest dirPath opts depth
        else if opts.exclude.contains item then
          visitedItemsF fuel children rest dirPath opts depth
        else
          let fullPath := dirPath ++ "/" ++ item
          let here : List (String × Nat) :=
            match childStat children item with
            | none => []
            | some (.broken _) => []
            | some (.dir sub subErr) => visitedDirF fuel sub subErr fullPath opts (depth + 1)
            | some (.file sz _ _) => [(fullPath, sz)]
          here ++ visitedItemsF fuel children rest dirPath opts depth

end

/-- The top-level `collectDirectoryStats(directoryPath, stats, …)` call of
line 521: reading a missing, broken or non-directory root throws inside the
walker's own try and is swallowed (lines 653-655), leaving the stats
unchanged. -/
def statsRoot (root : Option FSEntry) (dirPath : String) (opts : StatsOptions) : DirStats :=
  match root with
  | some (.dir children readErr) =>
      statsDirF (childrenFuel children) children readErr dirPath opts 0 initStats
  | _ => initStats

/-- Companion of `statsRoot` for the visited-file list. -/
def visitedRoot (root : Option FSEntry) (dirPath : String) (opts : StatsOptions) :
    List (String × Nat) :=
  match root with
  | some (.dir children readErr) =>
      visitedDirF (childrenFuel children) children readErr dirPath opts 0
  | _ => []

/-- Result object of `exportTreeToFile` (lines 234-246). -/
structure ExportTreeResult where
  success : Bool
  filePath : Option String
  error : Option String
  message : Option String
deriving Repr, DecidableEq

/-- The `try` body of `exportTreeToFile` (lines 218-238): render the tree
through a collecting logger (stripping colour codes), write the collected
lines to the output file (throwing on `writeErr`), and return success with
any non-fatal tree error passed through. -/
def exportTreeBody (p : PathArg) (root : Option FSEntry) (outputPath : String)
    (writeErr : Option String) (opts : TreeOptions) :
    Except String (List String × ExportTreeResult) :=
  let r := printTree p root opts
  match writeErr with
  | some msg => .error msg
  | none =>
      .ok (r.1, { success := true, filePath := some outputPath,
                  error := r.2.error, message := none })

/-- `exportTreeToFile` with its catch (lines 239-246). -/
def exportTreeToFileE (p : PathArg) (root : Option FSEntry) (outputPath : String)
    (writeErr : Option String) (opts : TreeOptions) :
    Except String (List String × ExportTreeResult) :=
  catchWith
    (fun msg =>
      ([], { success := false, filePath := none, error := some msg,
             message := some ("Failed to export tree: " ++ msg) }))
    (exportTreeBody p root outputPath writeErr opts)

/-- Options of `generateDirectorySummary` with the defaults of
lines 483-489. -/
structure SummaryOptions where
  exclude : List String
  showHidden : Bool
  includeStats : Bool
  includeFileCount : Bool
  maxDepth : Int
deriving Repr, DecidableEq

/-- The destructuring defaults of `generateDirectorySummary`
(lines 483-489): `node_modules` and `.git` excluded, hidden files hidden,
statistics included, unlimited depth. -/
def defaultSummaryOptions : SummaryOptions :=
  { exclude := ["node_modules", ".git"], showHidden := false,
    includeStats := true, includeFileCount := true, maxDepth := -1 }

/-- Result object of `generateDirectorySummary` (lines 567-579). -/
structure SummaryResult where
  success : Bool
  filePath : Option String
  stats : Option DirStats
  error : Option String
  message : Option String
deriving Repr, DecidableEq

/-- The statistics section of the summary (lines 528-557). -/
def statsLines (stats : DirStats) : List String :=
  ["", repeatChar '=' 80, "", "Directory Statistics:",
   "- Total Files: " ++ toString stats.totalFiles,
   "- Total Directories: " ++ toString stats.totalDirectories,
   "- Total Size: " ++ formatFileSize stats.totalSize,
   "", "File Types:"]
  ++ (sortCmp (fun a b => ((b.2.1 : Int) - (a.2.1 : Int))) stats.fileTypes).map
      (fun e => "- " ++ e.1 ++ ": " ++ toString e.2.1 ++ " files ("
        ++ formatFileSize e.2.2 ++ ")")
  ++ ["", "Largest Files:"]
  ++ (displayLargest stats.largestFiles).map
      (fun f => "- " ++ f.1 ++ " (" ++ formatFileSize f.2 ++ ")")

/-- The `try` body of `generateDirectorySummary` (lines 482-571):
`path.resolve` throws on a non-string path (line 502, the only way the root
path itself can fail the operation); the header is built with the caller's
clock (`timestamp` models `new Date().toLocaleString()`); `printTree` is
invoked for the structure section and — crucially — its result object is
discarded (lines 510-517), so an invalid-but-string root only contributes
its error line to the artifact; the statistics walker swallows its own
errors; the final `writeFileSync` (line 561) throws on `writeErr`. -/
def generateDirectorySummaryBody (p : PathArg) (root : Option FSEntry)
    (outputPath : String) (writeErr : Option String) (timestamp : String)
    (opts : SummaryOptions) : Except String (List String × SummaryResult) :=
  match p with
  | .nonstr => .error "The path argument must be of type string"
  | .str s =>
      let treeLines :=
        (printTree (.str s) root
          { pfx := "", maxDepth := opts.maxDepth, exclude := opts.exclude,
            showHidden := opts.showHidden, showSize := false, currentDepth := 0 }).1
      let stats := statsRoot root s
        { exclude := opts.exclude, showHidden := opts.showHidden, maxDepth := opts.maxDepth }
      let output :=
        ["Directory Summary: " ++ s, "Generated on: " ++ timestamp,
         repeatChar '=' 80, "", "Directory Structure:"]
        ++ treeLines
        ++ (if opts.includeStats || opts.includeFileCount then statsLines stats else [])
      match writeErr with
      | some msg => .error msg
      | none =>
          .ok (output,
               { success := true, filePath := some outputPath,
                 stats := some stats, error := none, message := none })

/-- `generateDirectorySummary` with its catch (lines 572-579). -/
def generateDirectorySummaryE (p : PathArg) (root : Option FSEntry)
    (outputPath : String) (writeErr : Option String) (timestamp : String)
    (opts : SummaryOptions) : Except String (List String × SummaryResult) :=
  catchWith
    (fun msg =>
      ([], { success := false, filePath := none, stats := none,
             error := some msg,
             message := some ("Failed to generate directory summary: " ++ msg) }))
    (generateDirectorySummaryBody p root outputPath writeErr timestamp opts)

/-- The elements of the anchored regular expression that `minimatch` builds
from a glob pattern consisting only of plain characters, `.` and `*`:
each `.` becomes an escaped literal dot, each `*` the quantified wildcard
`.*`, every other character itself. -/
def compileGlob : List Char → List (RAtom × RQuant)
  | [] => []
  | c :: ps =>
      if c == '*' then (RAtom.anyc, RQuant.star) :: compileGlob ps
      else (RAtom.lit c, RQuant.one) :: compileGlob ps

/-- The token stream `rtokens` produces from the substitution of a clean
glob pattern (proof helper mirroring `compileGlob`). -/
def globToks : List Char → List RTok
  | [] => []
  | c :: ps =>
      if c == '*' then RTok.atom RAtom.anyc :: RTok.quant RQuant.star :: globToks ps
      else RTok.atom (RAtom.lit c) :: globToks ps

/-- Modelled from the spec (§4.1): a pattern containing `*` "is matched via
substitution into a fully-anchored regular expression where `*` becomes
match zero or more of any character and the remainder of the pattern is
treated as literal".  Fuelled exactly like `rmatchF` (every step shrinks
`pattern length + string length`, so the wrapper's fuel is sufficient, and
the fuel recursion is in lockstep with `rmatchF` on compiled patterns). -/
def specWildcardMatchF : Nat → List Char → List Char → Bool
  | 0, _, _ => false
  | _ + 1, [], s => s.isEmpty
  | f + 1, c :: ps, s =>
      if c == '*' then
        specWildcardMatchF f ps s ||
          (match s with
           | [] => false
           | _ :: s' => specWildcardMatchF f (c :: ps) s')
      else
        match s with
        | [] => false
        | d :: s' => c == d && specWildcardMatchF f ps s'

/-- Modelled from the spec (§4.1): the fully-anchored wildcard match (see
`specWildcardMatchF`). -/
def specWildcardMatch (p s : List Char) : Bool :=
  specWildcardMatchF (p.length + s.length + 1) p s

/-- Modelled from the spec (§4.2): the EntryOrderer contract — "all entries
classified as directories sort before all entries classified as files;
within each class, entries sort by case-aware lexicographic comparison of
their names", and an entry whose stat fails "is treated as a file (sorts
after real directories)". -/
def specEntryCmp (children : List (String × FSEntry)) (a b : String) : Int :=
  let classDir := fun (n : String) =>
    match childStat children n with
    | some e => !e.isBrokenE && e.isDirE
    | none => false
  if classDir a && !classDir b then -1
  else if !classDir a && classDir b then 1
  else localeCompare a b

/-- Modelled from the spec (§4.2): the EntryOrderer as a stable sort with
`specEntryCmp` ("ties are broken by leaving relative order unchanged"). -/
def specEntrySort (children : List (String × FSEntry)) (items : List String) : List String :=
  sortCmp (specEntryCmp children) items

/-- Descending insertion into a list of sizes (proof helper for the
largest-files bound). -/
def insertDescNat (a : Nat) : List Nat → List Nat
  | [] => [a]
  | b :: t => if a ≥ b then a :: b :: t else b :: insertDescNat a t

/-- Descending sort of a list of sizes (proof helper; agrees with the
size-descending pair sort after projection). -/
def sortDescNat (l : List Nat) : List Nat :=
  l.foldr insertDescNat []

theorem insertCmp_length (cmp : α → α → Int) (x : α) (l : List α) :
    (insertCmp cmp x l).length = l.length + 1 := by
  induction l with
  | nil => rfl
  | cons y ys ih =>
      simp only [insertCmp]
      split <;> simp [ih]

theorem insertCmp_perm (cmp : α → α → Int) (x : α) (l : List α) :
    (insertCmp cmp x l).Perm (x :: l) := by
  induction l with
  | nil => simp [insertCmp]
  | cons y ys ih =>
      simp only [insertCmp]
      split
      · exact List.Perm.refl _
      · exact (List.Perm.cons y ih).trans (List.Perm.swap x y ys)

theorem sortCmp_perm (cmp : α → α → Int) (l : List α) : (sortCmp cmp l).Perm l := by
  suffices h : ∀ (l : List α) (acc : List α),
      (l.foldl (fun acc x => insertCmp cmp x acc) acc).Perm (acc ++ l) by
    simpa using h l []
  intro l
  induction l with
  | nil => intro acc; simp
  | cons x xs ih =>
      intro acc
      simp only [List.foldl_cons]
      refine (ih (insertCmp cmp x acc)).trans ?_
      have h1 : (insertCmp cmp x acc ++ xs).Perm ((x :: acc) ++ xs) :=
        (insertCmp_perm cmp x acc).append_right xs
      refine h1.trans ?_
      simpa using (@List.perm_middle _ x acc xs).symm

theorem sortCmp_length (cmp : α → α → Int) (l : List α) :
    (sortCmp cmp l).length = l.length :=
  (sortCmp_perm cmp l).length_eq

theorem sortCmp_mem {cmp : α → α → Int} {l : List α} {x : α} :
    x ∈ sortCmp cmp l ↔ x ∈ l :=
  (sortCmp_perm cmp l).mem_iff

theorem catchWith_isOk {α : Type} (h : String → α) (x : Except String α) :
    ∃ r, catchWith h x = .ok r := by
  cases x with
  | error m => exact ⟨h m, rfl⟩
  | ok a => exact ⟨a, rfl⟩

/-- Claim C4: every public operation (`printTree`, `exportTreeToFile`,
`exportFileContentsToFile`, `generateDirectorySummary`) returns a result
object (each result type carries a `success` flag) and never propagates an
exception to its caller: in the `Except`-level model of each operation,
every throw of the body is recovered by the operation's own catch, so the
operation evaluates to `.ok` for every path argument, filesystem state and
option record.  (A sink that is itself not callable is outside the model:
the spec types the logger as a caller-supplied sink.) -/
theorem publicOperationsAlwaysReturn :
    (∀ p root opts, ∃ r, printTreeE p root opts = .ok r) ∧
    (∀ p root outputPath writeErr opts,
        ∃ r, exportTreeToFileE p root outputPath writeErr opts = .ok r) ∧
    (∀ p root outputPath writeErr opts,
        ∃ r, exportFileContentsToFileE p root outputPath writeErr opts = .ok r) ∧
    (∀ p root outputPath writeErr timestamp opts,
        ∃ r, generateDirectorySummaryE p root outputPath writeErr timestamp opts = .ok r) := by
  refine ⟨?_, ?_, ?_, ?_⟩
  · intro p root opts
    exact catchWith_isOk _ _
  · intro p root outputPath writeErr opts
    exact catchWith_isOk _ _
  · intro p root outputPath writeErr opts
    exact catchWith_isOk _ _
  · intro p root outputPath writeErr timestamp opts
    exact catchWith_isOk _ _

/-- Claim C1 (counterexample): a subdirectory (`bad`) whose enumeration
fails non-fatally, with a sibling file.  The claim requires the top-level
`printTree` result to have `success = false`; the code instead returns
`success = true` (the loop at lines 152-155 deliberately leaves `success`
untouched and only copies the error), while the sibling is processed. -/
theorem treeSubdirFailure_cex :
    printTree (.str "root")
        (some (.dir [("bad", .dir [] (some "EACCES: permission denied")),
                     ("sib.txt", .file 3 "hey" none)] none))
        defaultTreeOptions
      = (["root/", "├── bad/",
          "│   ├── [Error reading directory: EACCES: permission denied]",
          "└── sib.txt"],
         { success := true, error := some "EACCES: permission denied" }) := by
  decide

/-- Claim C2 (counterexample): with `maxDepth = 0` the renderer still emits
the line for `a.txt`, an entry one directory-level below the root (the
depth guard `currentDepth > maxDepth` lets the call at depth `k` list its
children, so entries up to level `k+1` are emitted). -/
theorem treeDepthBound_cex :
    printTree (.str "root") (some (.dir [("a.txt", .file 3 "x" none)] none))
        { defaultTreeOptions with maxDepth := 0 }
      = (["root/", "└── a.txt"], { success := true, error := none }) := by
  decide

/-- Claim C3 (counterexample): an invalid root path (`missing` resolves to
nothing on disk) for which `generateDirectorySummary` nevertheless returns
`success = true`: the `printTree` result is discarded at lines 510-517, the
statistics walker swallows its error, and the write succeeds. -/
theorem summaryInvalidRoot_cex :
    (generateDirectorySummaryE (.str "missing") none "./directory-summary.txt"
        none "2026-01-01, 12:00:00 AM" defaultSummaryOptions).map
        (fun r => r.2.success)
      = .ok true := by
  rfl

/-- Claim C5 (counterexample): the pattern `*.txt` wildcard-matches
`a.txt` (first conjunct, via the very `minimatch` the claim appeals to),
yet `printTree` renders the entry (second conjunct): the tree filter at
line 90 uses exact `exclude.includes(item)` only and never interprets
wildcards. -/
theorem treeWildcardExclude_cex :
    minimatchE "a.txt" "*.txt" = .ok true ∧
    (printTree (.str "root") (some (.dir [("a.txt", .file 3 "x" none)] none))
        { defaultTreeOptions with exclude := ["*.txt"] }).1
      = ["root/", "└── a.txt"] := by
  exact ⟨by decide, by decide⟩

/-- Claim C9: in content export, a file of size exactly `maxFileSize` is
included — its content block is appended and it counts as processed
(provided its extension passes the allow-list and the read succeeds, the
qualifications §4.4 states separately) — while a file of size
`maxFileSize + 1` or more yields the `[FILE TOO LARGE: …]` placeholder with
its formatted size and a skip count, for every content, readability and
allow-list: the output is independent of the content, which is the
formal statement that the content is never read (the size check at
line 413 precedes both the extension check and the read). -/
theorem contentSizeBoundary :
    (∀ item relPath content (opts : ContentsOptions),
        (match opts.extensions with
         | some exts => exts = [] ∨ lowerStr (extname item) ∈ exts
         | none => True) →
        handleFile item relPath opts.maxFileSize content none opts
          = (["File: " ++ relPath ++ "\n\n" ++ content ++ "\n" ++ opts.separator],
             { processed := 1, skipped := 0 })) ∧
    (∀ item relPath sz content readErrF (opts : ContentsOptions),
        opts.maxFileSize + 1 ≤ sz →
        handleFile item relPath sz content readErrF opts
          = (["File: " ++ relPath ++ "\n[FILE TOO LARGE: " ++ formatFileSize sz ++ "]\n"
              ++ opts.separator],
             { processed := 0, skipped := 1 })) := by
  constructor
  · intro item relPath content opts hext
    unfold handleFile
    rw [if_neg (by omega)]
    have hrej :
        (match opts.extensions with
         | some exts => !exts.isEmpty && !exts.contains (lowerStr (extname item))
         | none => false) = false := by
      cases hx : opts.extensions with
      | none => rfl
      | some exts =>
          rw [hx] at hext
          rcases hext with h | h
          · subst h; rfl
          · have hc : exts.contains (lowerStr (extname item)) = true :=
              List.elem_eq_true_of_mem h
            simp [hc]
            intro _
            exact h
    simp only [hrej]
    simp
  · intro item relPath sz content readErrF opts hsz
    unfold handleFile
    rw [if_pos (by omega)]

/-- Claim C9 (witness). -/
theorem contentSizeBoundary_witness :
    (handleFile "a.txt" "r/a.txt" 1048576 "body" none defaultContentsOptions
      = (["File: r/a.txt\n\nbody\n" ++ defaultSeparator],
         { processed := 1, skipped := 0 })) ∧
    (handleFile "a.txt" "r/a.txt" 1048577 "body" none defaultContentsOptions
      = (["File: r/a.txt\n[FILE TOO LARGE: " ++ formatFileSize 1048577 ++ "]\n"
          ++ defaultSeparator],
         { processed := 0, skipped := 1 })) := by
  constructor
  · exact contentSizeBoundary.1 "a.txt" "r/a.txt" "body" defaultContentsOptions trivial
  · exact contentSizeBoundary.2 "a.txt" "r/a.txt" 1048577 "body" none
      defaultContentsOptions (by decide)

/-- Claim C10: the size check precedes the extension allow-list check: a
file larger than `maxFileSize` whose extension is not allowed still gets
the `[FILE TOO LARGE: …]` placeholder and a skip count (first conjunct),
whereas extension filtering. is silent — skip count, no block — only for
files within the size limit (second conjunct). -/
theorem contentSizeBeforeExtension :
    (∀ item relPath sz content readErrF (opts : ContentsOptions) exts,
        opts.maxFileSize < sz →
        opts.extensions = some exts →
        lowerStr (extname item) ∉ exts →
        handleFile item relPath sz content readErrF opts
          = (["File: " ++ relPath ++ "\n[FILE TOO LARGE: " ++ formatFileSize sz ++ "]\n"
              ++ opts.separator],
             { processed := 0, skipped := 1 })) ∧
    (∀ item relPath sz content readErrF (opts : ContentsOptions) exts,
        sz ≤ opts.maxFileSize →
        opts.extensions = some exts →
        exts ≠ [] →
        lowerStr (extname item) ∉ exts →
        handleFile item relPath sz content readErrF opts
          = ([], { processed := 0, skipped := 1 })) := by
  constructor
  · intro item relPath sz content readErrF opts exts hsz _ _
    unfold handleFile
    rw [if_pos (by omega)]
  · intro item relPath sz content readErrF opts exts hsz hx hne hmem
    unfold handleFile
    rw [if_neg (by omega)]
    have hrej :
        (match opts.extensions with
         | some exts => !exts.isEmpty && !exts.contains (lowerStr (extname item))
         | none => false) = true := by
      rw [hx]
      have h1 : exts.isEmpty = false := by
        cases exts with
        | nil => exact absurd rfl hne
        | cons a l => rfl
      have h2 : exts.contains (lowerStr (extname item)) = false := by
        cases hcc : exts.contains (lowerStr (extname item)) with
        | false => rfl
        | true => exact absurd (List.mem_of_elem_eq_true hcc) hmem
      simp [h1, h2]
      exact hmem
    simp only [hrej]
    simp

/-- Claim C10 (witness). -/
theorem contentSizeBeforeExtension_witness :
    (handleFile "big.bin" "r/big.bin" 2000000 "zz" none
        { defaultContentsOptions with extensions := some [".js"] }
      = (["File: r/big.bin\n[FILE TOO LARGE: " ++ formatFileSize 2000000 ++ "]\n"
          ++ defaultSeparator],
         { processed := 0, skipped := 1 })) ∧
    (handleFile "a.txt" "r/a.txt" 5 "zz" none
        { defaultContentsOptions with extensions := some [".js"] }
      = ([], { processed := 0, skipped := 1 })) := by
  constructor
  · exact contentSizeBeforeExtension.1 "big.bin" "r/big.bin" 2000000 "zz" none
      _ [".js"] (by decide) rfl (by decide)
  · exact contentSizeBeforeExtension.2 "a.txt" "r/a.txt" 5 "zz" none
      _ [".js"] (by decide) rfl (by decide) (by decide)

theorem renderItemsF_nil (fuel : Nat) (children : List (String × FSEntry))
    (opts : TreeOptions) : renderItemsF fuel children [] opts = ([], none) := by
  cases fuel <;> rfl

theorem renderDirF_depthGuard (fuel : Nat) (name : String)
    (children : List (String × FSEntry)) (readErr : Option String)
    (opts : TreeOptions) (h1 : opts.maxDepth ≥ 0)
    (h2 : (opts.currentDepth : Int) > opts.maxDepth) :
    renderDirF fuel name children readErr opts = ([], { success := true, error := none }) := by
  cases fuel with
  | zero => rfl
  | succ f =>
      simp only [renderDirF]
      rw [if_pos ⟨h1, h2⟩]

theorem mem_renderItemsF (children : List (String × FSEntry)) (opts : TreeOptions) :
    ∀ (items : List String) (fuel : Nat), items.length ≤ fuel →
      ∀ item ∈ items,
        ∃ l ∈ (renderItemsF fuel children items opts).1,
          ∃ conn suffix, (conn = "├── " ∨ conn = "└── ") ∧
            l = opts.pfx ++ conn ++ item ++ suffix := by
  intro items
  induction items with
  | nil =>
      intro fuel _ item h
      exact absurd h (List.not_mem_nil _)
  | cons hd rest ih =>
      intro fuel hlen item hmem
      cases fuel with
      | zero => simp at hlen
      | succ f =>
          have hconn : ((if rest.isEmpty then "└── " else "├── ") = "├── " ∨
              (if rest.isEmpty then "└── " else "├── ") = "└── ") := by
            cases rest.isEmpty
            · exact Or.inl rfl
            · exact Or.inr rfl
          rcases List.mem_cons.mp hmem with hitem | hitem
          · subst hitem
            cases hstat : childStat children item with
            | none =>
                refine ⟨opts.pfx ++ (if rest.isEmpty then "└── " else "├── ") ++ item
                    ++ " [Error: ENOENT: no such file or directory]", ?_,
                  _, _, hconn, rfl⟩
                simp only [renderItemsF, hstat]
                exact List.mem_append_left _ (List.mem_singleton.mpr rfl)
            | some e =>
                cases e with
                | broken msg =>
                    refine ⟨opts.pfx ++ (if rest.isEmpty then "└── " else "├── ") ++ item
                        ++ (" [Error: " ++ msg ++ "]"), ?_,
                      _, _, hconn, rfl⟩
                    simp only [renderItemsF, hstat]
                    refine List.mem_append_left _ (List.mem_singleton.mpr ?_)
                    simp [String.append_assoc]
                | file sz content readErrF =>
                    refine ⟨opts.pfx ++ (if rest.isEmpty then "└── " else "├── ") ++ item
                        ++ (if opts.showSize then " (" ++ formatFileSize sz ++ ")" else ""),
                      ?_, _, _, hconn, rfl⟩
                    simp only [renderItemsF, hstat]
                    exact List.mem_append_left _ (List.mem_singleton.mpr rfl)
                | dir sub subErr =>
                    refine ⟨opts.pfx ++ (if rest.isEmpty then "└── " else "├── ") ++ item
                        ++ "/", ?_, _, _, hconn, rfl⟩
                    simp only [renderItemsF, hstat]
                    exact List.mem_append_left _ (List.mem_cons_self _ _)
          · have hrest := ih f (by simp at hlen; omega) item hitem
            rcases hrest with ⟨l, hl, conn, suffix, hc, he⟩
            refine ⟨l, ?_, conn, suffix, hc, he⟩
            simp only [renderItemsF]
            exact List.mem_append_right _ hl

theorem renderDirF_mem_line (fuel : Nat) (name : String)
    (children : List (String × FSEntry)) (opts : TreeOptions) (item : String)
    (hguard : ¬(opts.maxDepth ≥ 0 ∧ (opts.currentDepth : Int) > opts.maxDepth))
    (hmem : item ∈ (children.map (fun p => p.1)).filter
      (visibleItem opts.showHidden opts.exclude))
    (hfuel : ((children.map (fun p => p.1)).filter
      (visibleItem opts.showHidden opts.exclude)).length ≤ fuel) :
    ∃ l ∈ (renderDirF (fuel + 1) name children none opts).1,
      ∃ conn suffix, (conn = "├── " ∨ conn = "└── ") ∧
        l = opts.pfx ++ conn ++ item ++ suffix := by
  have hs : item ∈ sortCmp (treeCmp children)
      ((children.map (fun p => p.1)).filter (visibleItem opts.showHidden opts.exclude)) :=
    sortCmp_mem.mpr hmem
  have hslen : (sortCmp (treeCmp children)
      ((children.map (fun p => p.1)).filter (visibleItem opts.showHidden opts.exclude))).length
      ≤ fuel := by
    rw [sortCmp_length]
    exact hfuel
  rcases mem_renderItemsF children opts _ fuel hslen item hs with
    ⟨l, hl, conn, suffix, hc, he⟩
  refine ⟨l, ?_, conn, suffix, hc, he⟩
  simp only [renderDirF]
  rw [if_neg hguard]
  exact List.mem_append_left _ (List.mem_append_right _ hl)

/-- Claim C1 (amended): when a proper subdirectory's enumeration fails
non-fatally, the failure is confined to the recursive call on that
directory — which returns `success = false` with the error (second
conjunct) — while the enclosing render keeps `success = true` whenever its
own directory listing succeeded, whatever its subtree contains (first
conjunct), and every visible sibling still gets its line in the output
(third conjunct).  The top-level result is therefore `success = true` (not
`false` as the claim stated), with the failure only propagated through the
`error` field. -/
theorem treeSubdirFailure_amended :
    (∀ fuel name children (opts : TreeOptions),
        (renderDirF fuel name children none opts).2.success = true) ∧
    (∀ fuel name children msg (opts : TreeOptions),
        ¬(opts.maxDepth ≥ 0 ∧ (opts.currentDepth : Int) > opts.maxDepth) →
        (renderDirF (fuel + 1) name children (some msg) opts).2
          = { success := false, error := some msg }) ∧
    (∀ fuel name children (opts : TreeOptions) item,
        ¬(opts.maxDepth ≥ 0 ∧ (opts.currentDepth : Int) > opts.maxDepth) →
        item ∈ (children.map (fun p => p.1)).filter
          (visibleItem opts.showHidden opts.exclude) →
        ((children.map (fun p => p.1)).filter
          (visibleItem opts.showHidden opts.exclude)).length ≤ fuel →
        ∃ l ∈ (renderDirF (fuel + 1) name children none opts).1,
          ∃ conn suffix, (conn = "├── " ∨ conn = "└── ") ∧
            l = opts.pfx ++ conn ++ item ++ suffix) := by
  refine ⟨?_, ?_, ?_⟩
  · intro fuel name children opts
    cases fuel with
    | zero => rfl
    | succ f =>
        simp only [renderDirF]
        split
        · rfl
        · rfl
  · intro fuel name children msg opts hguard
    simp only [renderDirF]
    rw [if_neg hguard]
  · intro fuel name children opts item hguard hmem hfuel
    exact renderDirF_mem_line fuel name children opts item hguard hmem hfuel

/-- Claim C1 (witness). -/
theorem treeSubdirFailure_amended_witness :
    ((renderDirF 9 "r" [("bad", .dir [] (some "EACCES")), ("sib.txt", .file 3 "x" none)]
        none defaultTreeOptions).2.success = true) ∧
    ((renderDirF 9 "bad" [] (some "EACCES")
        { defaultTreeOptions with currentDepth := 1 }).2
      = { success := false, error := some "EACCES" }) ∧
    (∃ l ∈ (renderDirF 9 "r"
        [("bad", .dir [] (some "EACCES")), ("sib.txt", .file 3 "x" none)]
        none defaultTreeOptions).1,
      ∃ conn suffix, (conn = "├── " ∨ conn = "└── ") ∧
        l = defaultTreeOptions.pfx ++ conn ++ "sib.txt" ++ suffix) := by
  refine ⟨?_, ?_, ?_⟩
  · exact treeSubdirFailure_amended.1 9 "r" _ defaultTreeOptions
  · exact treeSubdirFailure_amended.2.1 8 "bad" [] "EACCES" _ (by decide)
  · exact treeSubdirFailure_amended.2.2 8 "r" _ defaultTreeOptions "sib.txt"
      (by decide) (by decide) (by decide)

/-- Claim C2 (amended): with `maxDepth = k ≥ 0`, any recursive call at
`currentDepth > k` — in particular every call one level below a depth-`k`
directory — emits nothing and reports a clean success (first conjunct), so
no line is emitted for an entry more than `k+1` directory-levels below the
root: the call at depth `k` still lists its immediate children (the
counterexample), and a directory child of a depth-`k` call contributes
exactly its own line, with nothing from its subtree (second conjunct).
The effective descent condition is therefore `maxDepth < 0` or
`currentDepth + 1 ≤ maxDepth`, as the claim's second sentence states. -/
theorem treeDepthBound_amended :
    (∀ fuel name children readErr (opts : TreeOptions),
        opts.maxDepth ≥ 0 → (opts.currentDepth : Int) > opts.maxDepth →
        renderDirF fuel name children readErr opts
          = ([], { success := true, error := none })) ∧
    (∀ fuel children (opts : TreeOptions) item sub subErr,
        opts.maxDepth ≥ 0 → (opts.currentDepth : Int) = opts.maxDepth →
        childStat children item = some (.dir sub subErr) →
        (renderItemsF (fuel + 1) children [item] opts).1
          = [opts.pfx ++ "└── " ++ item ++ "/"]) := by
  constructor
  · exact fun fuel name children readErr opts h1 h2 =>
      renderDirF_depthGuard fuel name children readErr opts h1 h2
  · intro fuel children opts item sub subErr h1 h2 hstat
    simp only [renderItemsF, hstat]
    rw [renderDirF_depthGuard fuel item sub subErr _ (by simpa using h1)
        (by push_cast; omega)]
    rw [renderItemsF_nil]
    simp

/-- Claim C2 (witness). -/
theorem treeDepthBound_amended_witness :
    (renderDirF 7 "deep" [("a.txt", .file 1 "x" none)] none
        { defaultTreeOptions with maxDepth := 0, currentDepth := 1 }
      = ([], { success := true, error := none })) ∧
    ((renderItemsF 7 [("sub", .dir [("inner.txt", .file 1 "x" none)] none)] ["sub"]
        { defaultTreeOptions with maxDepth := 0 }).1
      = ["└── " ++ "sub" ++ "/"]) := by
  constructor
  · exact treeDepthBound_amended.1 7 "deep" _ none _ (by decide) (by decide)
  · have h := treeDepthBound_amended.2 6
      [("sub", .dir [("inner.txt", .file 1 "x" none)] none)]
      { defaultTreeOptions with maxDepth := 0 } "sub"
      [("inner.txt", .file 1 "x" none)] none (by decide) (by decide) rfl
    simpa using h

/-- Claim C3 (amended): `generateDirectorySummary` fails — returns
`success = false` — exactly when the output artifact cannot be written
(second conjunct) or the root path is not a string, so that `path.resolve`
throws (third conjunct).  For every *string* root path, valid or not, and
every filesystem state it returns `success = true` when the write succeeds
(first conjunct): the root check is not delegated anywhere — `printTree`'s
failed result object is discarded at lines 510-517 and the statistics
walker swallows its errors, so an invalid root merely leaves an error line
inside the artifact. -/
theorem summaryFailureModes_amended :
    (∀ s root outputPath timestamp (opts : SummaryOptions),
        (generateDirectorySummaryE (.str s) root outputPath none timestamp opts).map
          (fun r => r.2.success) = .ok true) ∧
    (∀ p root outputPath msg timestamp (opts : SummaryOptions),
        (generateDirectorySummaryE p root outputPath (some msg) timestamp opts).map
          (fun r => r.2.success) = .ok false) ∧
    (∀ root outputPath writeErr timestamp (opts : SummaryOptions),
        (generateDirectorySummaryE .nonstr root outputPath writeErr timestamp opts).map
          (fun r => r.2.success) = .ok false) := by
  refine ⟨?_, ?_, ?_⟩
  · intro s root outputPath timestamp opts
    rfl
  · intro p root outputPath msg timestamp opts
    cases p <;> rfl
  · intro root outputPath writeErr timestamp opts
    rfl

/-- Claim C5 (amended): `TreeRenderer` applies only the hidden-name rule
and *exact* name equality against the exclusion list before ordering; the
wildcard part of the PathFilter contract is not applied in tree rendering
(only `ContentCollector` interprets `*`).  Consequently an entry that is
not hidden and whose name equals no exclusion pattern *exactly* is always
rendered — even when its name wildcard-matches an exclusion pattern, as in
the counterexample. -/
theorem treeExactExclude_amended :
    ∀ fuel name children (opts : TreeOptions) item e,
      (item, e) ∈ children →
      (opts.showHidden = true ∨ startsWithDot item = false) →
      item ∉ opts.exclude →
      ¬(opts.maxDepth ≥ 0 ∧ (opts.currentDepth : Int) > opts.maxDepth) →
      ((children.map (fun p => p.1)).filter
        (visibleItem opts.showHidden opts.exclude)).length ≤ fuel →
      ∃ l ∈ (renderDirF (fuel + 1) name children none opts).1,
        ∃ conn suffix, (conn = "├── " ∨ conn = "└── ") ∧
          l = opts.pfx ++ conn ++ item ++ suffix := by
  intro fuel name children opts item e hmem hhid hexc hguard hfuel
  have hvis : visibleItem opts.showHidden opts.exclude item = true := by
    unfold visibleItem
    have h1 : (!opts.showHidden && startsWithDot item) = false := by
      rcases hhid with h | h
      · rw [h]; rfl
      · rw [h]; simp
    have h2 : opts.exclude.contains item = false := by
      cases hc : opts.exclude.contains item with
      | false => rfl
      | true => exact absurd (List.mem_of_elem_eq_true hc) hexc
    rw [h1, h2]
    rfl
  have hfst : item ∈ children.map (fun p => p.1) :=
    List.mem_map.mpr ⟨(item, e), hmem, rfl⟩
  have hfilt : item ∈ (children.map (fun p => p.1)).filter
      (visibleItem opts.showHidden opts.exclude) :=
    List.mem_filter.mpr ⟨hfst, hvis⟩
  exact renderDirF_mem_line fuel name children opts item hguard hfilt hfuel

/-- Claim C5 (witness): the entry `a.txt` wildcard-matches the exclusion
pattern `*.txt` but is not exactly equal to it, so it is rendered. -/
theorem treeExactExclude_amended_witness :
    ∃ l ∈ (renderDirF 9 "root" [("a.txt", .file 3 "x" none)] none
        { defaultTreeOptions with exclude := ["*.txt"] }).1,
      ∃ conn suffix, (conn = "├── " ∨ conn = "└── ") ∧
        l = ({ defaultTreeOptions with exclude := ["*.txt"] } : TreeOptions).pfx
          ++ conn ++ "a.txt" ++ suffix := by
  exact treeExactExclude_amended 8 "root" _ _ "a.txt" (.file 3 "x" none)
    (List.mem_singleton.mpr rfl) (Or.inr (by decide)) (by decide) (by decide) (by decide)

theorem localeCompare_le_iff (a b : String) :
    localeCompare a b ≤ 0 ↔
      (lowerStr a < lowerStr b ∨ (lowerStr a = lowerStr b ∧ b ≤ a)) := by
  unfold localeCompare
  split_ifs with h1 h2 h3 h4
  · constructor
    · intro _; exact Or.inl h1
    · intro _; omega
  · constructor
    · intro hc; omega
    · rintro (hlt | ⟨heq, _⟩)
      · exact absurd hlt (lt_asymm h2)
      · exact absurd h2 (heq ▸ lt_irrefl _)
  · have heq : lowerStr a = lowerStr b := le_antisymm (not_lt.mp h2) (not_lt.mp h1)
    constructor
    · intro hc; omega
    · rintro (hlt | ⟨_, hle⟩)
      · exact absurd hlt h1
      · exact absurd h3 (not_lt.mpr hle)
  · have heq : lowerStr a = lowerStr b := le_antisymm (not_lt.mp h2) (not_lt.mp h1)
    constructor
    · intro _; exact Or.inr ⟨heq, le_of_lt h4⟩
    · intro _; omega
  · have heq : lowerStr a = lowerStr b := le_antisymm (not_lt.mp h2) (not_lt.mp h1)
    have hab : a = b := le_antisymm (not_lt.mp h4) (not_lt.mp h3)
    constructor
    · intro _; exact Or.inr ⟨heq, le_of_eq hab.symm⟩
    · intro _; omega

theorem localeCompare_lt_iff (a b : String) :
    localeCompare a b < 0 ↔
      (lowerStr a < lowerStr b ∨ (lowerStr a = lowerStr b ∧ b < a)) := by
  unfold localeCompare
  split_ifs with h1 h2 h3 h4
  · constructor
    · intro _; exact Or.inl h1
    · intro _; omega
  · constructor
    · intro hc; omega
    · rintro (hlt | ⟨heq, _⟩)
      · exact absurd hlt (lt_asymm h2)
      · exact absurd h2 (heq ▸ lt_irrefl _)
  · have heq : lowerStr a = lowerStr b := le_antisymm (not_lt.mp h2) (not_lt.mp h1)
    constructor
    · intro hc; omega
    · rintro (hlt | ⟨_, hltb⟩)
      · exact absurd hlt h1
      · exact absurd h3 (lt_asymm hltb)
  · have heq : lowerStr a = lowerStr b := le_antisymm (not_lt.mp h2) (not_lt.mp h1)
    constructor
    · intro _; exact Or.inr ⟨heq, h4⟩
    · intro _; omega
  · constructor
    · intro hc; omega
    · rintro (hlt | ⟨_, hltb⟩)
      · exact absurd hlt h1
      · exact absurd hltb h4

theorem localeCompare_trans {a b c : String}
    (h1 : localeCompare a b ≤ 0) (h2 : localeCompare b c ≤ 0) :
    localeCompare a c ≤ 0 := by
  rw [localeCompare_le_iff] at h1 h2 ⊢
  rcases h1 with hlt1 | ⟨heq1, hle1⟩
  · rcases h2 with hlt2 | ⟨heq2, hle2⟩
    · exact Or.inl (lt_trans hlt1 hlt2)
    · exact Or.inl (heq2 ▸ hlt1)
  · rcases h2 with hlt2 | ⟨heq2, hle2⟩
    · exact Or.inl (heq1 ▸ hlt2)
    · exact Or.inr ⟨heq1.trans heq2, le_trans hle2 hle1⟩

theorem localeCompare_total {a b : String} (h : ¬(localeCompare a b < 0)) :
    localeCompare b a ≤ 0 := by
  rw [localeCompare_lt_iff] at h
  rw [localeCompare_le_iff]
  push_neg at h
  rcases lt_trichotomy (lowerStr a) (lowerStr b) with hlt | heq | hgt
  · exact absurd hlt h.1
  · exact Or.inr ⟨heq.symm, not_lt.mp (h.2 heq)⟩
  · exact Or.inl hgt

theorem treeCmp_total (children : List (String × FSEntry)) (a b : String)
    (h : ¬(treeCmp children a b < 0)) : treeCmp children b a ≤ 0 := by
  unfold treeCmp at h ⊢
  cases ha : childStat children a with
  | none =>
      cases hb : childStat children b <;> simp
  | some ea =>
      cases hb : childStat children b with
      | none => simp
      | some eb =>
          rw [ha, hb] at h
          cases hba : ea.isBrokenE <;> cases hbb : eb.isBrokenE <;>
            cases hda : ea.isDirE <;> cases hdb : eb.isDirE <;>
              simp only [hba, hbb, hda, hdb] at h ⊢ <;>
              try simp at h ⊢
          all_goals
            first
            | omega
            | exact localeCompare_total h
            | exact localeCompare_total (not_lt.mpr h)

theorem treeCmp_trans (children : List (String × FSEntry)) (a b c : String)
    (hga : ∃ e, childStat children a = some e ∧ e.isBrokenE = false)
    (hgb : ∃ e, childStat children b = some e ∧ e.isBrokenE = false)
    (hgc : ∃ e, childStat children c = some e ∧ e.isBrokenE = false)
    (h1 : treeCmp children a b ≤ 0) (h2 : treeCmp children b c ≤ 0) :
    treeCmp children a c ≤ 0 := by
  rcases hga with ⟨ea, hea, hba⟩
  rcases hgb with ⟨eb, heb, hbb⟩
  rcases hgc with ⟨ec, hec, hbc⟩
  unfold treeCmp at h1 h2 ⊢
  rw [hea, heb] at h1
  rw [heb, hec] at h2
  rw [hea, hec]
  cases hda : ea.isDirE <;> cases hdb : eb.isDirE <;> cases hdc : ec.isDirE <;>
    simp only [hba, hbb, hbc, hda, hdb, hdc] at h1 h2 ⊢ <;>
    try simp at h1 h2 ⊢
  all_goals
    first
    | omega
    | exact localeCompare_trans h1 h2

theorem insertCmp_pairwise {α : Type} (cmp : α → α → Int) (P : α → Prop)
    (htot : ∀ a b, ¬(cmp a b < 0) → cmp b a ≤ 0)
    (htrans : ∀ a b c, P a → P b → P c → cmp a b ≤ 0 → cmp b c ≤ 0 → cmp a c ≤ 0)
    (x : α) (hPx : P x) : ∀ (acc : List α), (∀ y ∈ acc, P y) →
      acc.Pairwise (fun a b => cmp a b ≤ 0) →
      (insertCmp cmp x acc).Pairwise (fun a b => cmp a b ≤ 0) := by
  intro acc
  induction acc with
  | nil =>
      intro _ _
      simp [insertCmp]
  | cons y ys ih =>
      intro hPacc hs
      simp only [insertCmp]
      split
      · rename_i h
        refine List.pairwise_cons.mpr ⟨?_, hs⟩
        intro z hz
        rcases List.mem_cons.mp hz with rfl | hz2
        · exact le_of_lt h
        · have hyz : cmp y z ≤ 0 := (List.pairwise_cons.mp hs).1 z hz2
          exact htrans x y z hPx (hPacc y (List.mem_cons_self _ _))
            (hPacc z (List.mem_cons_of_mem _ hz2)) (le_of_lt h) hyz
      · rename_i h
        have hys := (List.pairwise_cons.mp hs).2
        refine List.pairwise_cons.mpr ⟨?_, ?_⟩
        · intro z hz
          have hz2 : z ∈ x :: ys := (insertCmp_perm cmp x ys).mem_iff.mp hz
          rcases List.mem_cons.mp hz2 with hzx | hz3
          · rw [hzx]
            exact htot x y h
          · exact (List.pairwise_cons.mp hs).1 z hz3
        · exact ih (fun w hw => hPacc w (List.mem_cons_of_mem _ hw)) hys

theorem sortCmp_pairwise {α : Type} (cmp : α → α → Int) (P : α → Prop) (l : List α)
    (hP : ∀ x ∈ l, P x)
    (htot : ∀ a b, ¬(cmp a b < 0) → cmp b a ≤ 0)
    (htrans : ∀ a b c, P a → P b → P c → cmp a b ≤ 0 → cmp b c ≤ 0 → cmp a c ≤ 0) :
    (sortCmp cmp l).Pairwise (fun a b => cmp a b ≤ 0) := by
  suffices hgen : ∀ (todo acc : List α), (∀ x ∈ todo, P x) → (∀ y ∈ acc, P y) →
      acc.Pairwise (fun a b => cmp a b ≤ 0) →
      (todo.foldl (fun acc x => insertCmp cmp x acc) acc).Pairwise
        (fun a b => cmp a b ≤ 0) by
    exact hgen l [] hP (by intro y hy; exact absurd hy (List.not_mem_nil _))
      List.Pairwise.nil
  intro todo
  induction todo with
  | nil => intro acc _ _ hs; exact hs
  | cons x xs ih =>
      intro acc hPtodo hPacc hs
      simp only [List.foldl_cons]
      refine ih (insertCmp cmp x acc) (fun w hw => hPtodo w (List.mem_cons_of_mem _ hw))
        ?_ ?_
      · intro y hy
        have : y ∈ x :: acc := (insertCmp_perm cmp x acc).mem_iff.mp hy
        rcases List.mem_cons.mp this with rfl | hy'
        · exact hPtodo y (List.mem_cons_self _ _)
        · exact hPacc y hy'
      · exact insertCmp_pairwise cmp P htot htrans x
          (hPtodo x (List.mem_cons_self _ _)) acc hPacc hs

/-- Claim C6 (counterexample): the entry `x` has a failing stat and `d` is
a real directory.  The claim's EntryOrderer (spec §4.2: a failing entry "is
treated as a file — sorting after real directories") must order `d` before
`x` (second conjunct); the comparator of lines 98-112 instead returns `0`
from its catch, so any stable sort — on a two-element array, any sort —
leaves the original order `x` before `d` (first conjunct). -/
theorem entryOrderBroken_cex :
    sortCmp (treeCmp [("x", .broken "EACCES"), ("d", .dir [] none)]) ["x", "d"]
      = ["x", "d"] ∧
    specEntrySort [("x", .broken "EACCES"), ("d", .dir [] none)] ["x", "d"]
      = ["d", "x"] ∧
    (["x", "d"] : List String) ≠ ["d", "x"] :=
  ⟨by decide, by decide, by decide⟩

/-- Claim C6 (amended): `EntryOrderer` is the stable sort with the
comparator of lines 98-112; the output is a permutation of the input
(first conjunct), and when every compared entry stats successfully and is
not broken it is totally ordered by the comparator — directories before
files, case-aware `localeCompare` within a class (second and fourth
conjuncts).  An entry whose stat fails is *not* moved after the
directories: the comparator's catch returns `0` against every neighbour
(third conjunct), so the stable sort leaves such an entry in its original
relative position. -/
theorem entryOrder_amended :
    (∀ children (items : List String), (sortCmp (treeCmp children) items).Perm items) ∧
    (∀ children (items : List String),
        (∀ n ∈ items, ∃ e, childStat children n = some e ∧ e.isBrokenE = false) →
        (sortCmp (treeCmp children) items).Pairwise
          (fun a b => treeCmp children a b ≤ 0)) ∧
    (∀ children a b e, childStat children a = some e → e.isBrokenE = true →
        treeCmp children a b = 0 ∧ treeCmp children b a = 0) ∧
    (∀ children a b ea eb, childStat children a = some ea →
        childStat children b = some eb →
        ea.isBrokenE = false → eb.isBrokenE = false →
        ea.isDirE = true → eb.isDirE = false →
        treeCmp children a b < 0) := by
  refine ⟨?_, ?_, ?_, ?_⟩
  · intro children items
    exact sortCmp_perm _ _
  · intro children items hgood
    refine sortCmp_pairwise (treeCmp children)
      (fun n => ∃ e, childStat children n = some e ∧ e.isBrokenE = false)
      items hgood (treeCmp_total children) ?_
    intro a b c hga hgb hgc h1 h2
    exact treeCmp_trans children a b c hga hgb hgc h1 h2
  · intro children a b e hstat hbroken
    constructor
    · unfold treeCmp
      rw [hstat]
      cases hb : childStat children b
      · rfl
      · simp [hbroken]
    · unfold treeCmp
      rw [hstat]
      cases hb : childStat children b
      · rfl
      · simp [hbroken]
  · intro children a b ea eb ha hb hba hbb hda hdb
    unfold treeCmp
    rw [ha, hb]
    simp [hba, hbb, hda, hdb]

/-- Claim C6 (witness). -/
theorem entryOrder_amended_witness :
    ((sortCmp (treeCmp [("b.txt", .file 1 "x" none), ("A", .dir [] none)])
        ["b.txt", "A"]).Perm ["b.txt", "A"]) ∧
    ((sortCmp (treeCmp [("b.txt", .file 1 "x" none), ("A", .dir [] none)])
        ["b.txt", "A"]).Pairwise
      (fun a b => treeCmp [("b.txt", .file 1 "x" none), ("A", .dir [] none)] a b ≤ 0)) ∧
    (treeCmp [("g", .broken "gone"), ("d", .dir [] none)] "g" "d" = 0 ∧
     treeCmp [("g", .broken "gone"), ("d", .dir [] none)] "d" "g" = 0) ∧
    (treeCmp [("b.txt", .file 1 "x" none), ("A", .dir [] none)] "A" "b.txt" < 0) := by
  refine ⟨?_, ?_, ?_, ?_⟩
  · exact entryOrder_amended.1 _ _
  · refine entryOrder_amended.2.1 _ _ ?_
    intro n hn
    rcases List.mem_cons.mp hn with rfl | hn'
    · exact ⟨.file 1 "x" none, rfl, rfl⟩
    · rcases List.mem_cons.mp hn' with rfl | hn''
      · exact ⟨.dir [] none, rfl, rfl⟩
      · exact absurd hn'' (List.not_mem_nil _)
  · exact entryOrder_amended.2.2.1 _ "g" "d" (.broken "gone") rfl rfl
  · exact entryOrder_amended.2.2.2 _ "A" "b.txt" (.dir [] none) (.file 1 "x" none)
      rfl rfl rfl rfl rfl rfl

theorem compileGlob_length (p : List Char) : (compileGlob p).length = p.length := by
  induction p with
  | nil => rfl
  | cons c ps ih =>
      by_cases hc : c = '*'
      · subst hc
        simp [compileGlob, ih]
      · simp [compileGlob, hc, ih]

theorem globToks_head (d : Char) (r : List Char) :
    ∃ a ts, globToks (d :: r) = RTok.atom a :: ts := by
  by_cases hd : d = '*'
  · subst hd
    refine ⟨RAtom.anyc, RTok.quant RQuant.star :: globToks r, ?_⟩
    simp [globToks]
  · refine ⟨RAtom.lit d, globToks r, ?_⟩
    simp [globToks, hd]

theorem rtokens_substChars :
    ∀ p : List Char, (∀ c ∈ p, regexMeta c = false) →
      rtokens (substChars p) = .ok (globToks p) := by
  intro p
  induction p with
  | nil => intro _; rfl
  | cons c ps ih =>
      intro hclean
      have hcps : ∀ d ∈ ps, regexMeta d = false :=
        fun d hd => hclean d (List.mem_cons_of_mem _ hd)
      have hc : regexMeta c = false := hclean c (List.mem_cons_self _ _)
      by_cases h1 : c = '.'
      · subst h1
        simp [substChars, rtokens, escTok, globToks, Except.map, ih hcps]
      · by_cases h2 : c = '*'
        · subst h2
          simp [substChars, rtokens, escTok, globToks, Except.map, ih hcps]
        · have hne : ∀ d : Char, regexMeta d = true → c ≠ d := by
            intro d hd he
            rw [he, hd] at hc
            exact absurd hc (by simp)
          have h3 : c ≠ '+' := hne '+' (by decide)
          have h4 : c ≠ '?' := hne '?' (by decide)
          have h5 : c ≠ '\\' := hne '\\' (by decide)
          simp [substChars, rtokens, escTok, globToks, Except.map, ih hcps,
            h1, h2, h3, h4, h5, hc]

theorem pairTokens_globToks : ∀ p : List Char,
    pairTokens (globToks p) = .ok (compileGlob p) := by
  intro p
  induction p with
  | nil => rfl
  | cons c ps ih =>
      by_cases hc : c = '*'
      · subst hc
        simp only [globToks]
        rw [if_pos (by decide)]
        simp only [pairTokens, ih]
        simp only [compileGlob]
        rw [if_pos (by decide)]
        rfl
      · have hb : (c == '*') = false := beq_eq_false_iff_ne.mpr hc
        simp only [globToks, hb, if_false]
        cases hps : ps with
        | nil =>
            simp only [globToks, pairTokens]
            simp only [compileGlob, hb, if_false]
            rfl
        | cons d ds =>
            rcases globToks_head d ds with ⟨a, ts, hhead⟩
            rw [hhead]
            simp only [pairTokens]
            rw [← hhead, ← hps, ih]
            simp only [compileGlob, hb, if_false]
            rfl

theorem parseBody_substChars (p : List Char) (hclean : ∀ c ∈ p, regexMeta c = false) :
    parseBody (substChars p) = .ok (compileGlob p) := by
  unfold parseBody
  rw [rtokens_substChars p hclean]
  exact pairTokens_globToks p

theorem rmatch_spec_lockstep (f : Nat) :
    ∀ (p s : List Char), (∀ c ∈ s, lineTerminator c = false) →
      rmatchF f (compileGlob p) s = specWildcardMatchF f p s := by
  induction f with
  | zero => intro p s _; rfl
  | succ f ih =>
      intro p s hs
      cases p with
      | nil => rfl
      | cons c ps =>
          by_cases hc : c = '*'
          · subst hc
            have hcg : compileGlob ('*' :: ps)
                = (RAtom.anyc, RQuant.star) :: compileGlob ps := by
              simp [compileGlob]
            rw [hcg]
            cases s with
            | nil =>
                simp only [rmatchF, specWildcardMatchF]
                rw [if_pos (by decide)]
                rw [ih ps [] (by intro c hcm; exact absurd hcm (List.not_mem_nil _))]
            | cons d s' =>
                have hd : lineTerminator d = false := hs d (List.mem_cons_self _ _)
                have hs' : ∀ x ∈ s', lineTerminator x = false :=
                  fun x hx => hs x (List.mem_cons_of_mem _ hx)
                simp only [rmatchF, specWildcardMatchF]
                rw [if_pos (by decide)]
                rw [ih ps (d :: s') hs]
                have h2 := ih ('*' :: ps) s' hs'
                rw [hcg] at h2
                rw [h2]
                simp [amatch, hd]
          · have hb : (c == '*') = false := beq_eq_false_iff_ne.mpr hc
            have hcg : compileGlob (c :: ps)
                = (RAtom.lit c, RQuant.one) :: compileGlob ps := by
              simp [compileGlob, hb]
            rw [hcg]
            cases s with
            | nil =>
                simp [rmatchF, specWildcardMatchF, hb]
            | cons d s' =>
                have hs' : ∀ x ∈ s', lineTerminator x = false :=
                  fun x hx => hs x (List.mem_cons_of_mem _ hx)
                simp [rmatchF, specWildcardMatchF, hb, amatch, ih ps s' hs']

/-- Claim C7 (counterexample): the matcher is not total: the pattern `(*`
contains `*`, so it reaches `minimatch`, whose substitution yields the
regex body `(.*` — an unterminated group, on which `new RegExp` throws a
`SyntaxError` (first two conjuncts, the second showing the thrown error
escaping the whole `exclude.some` test).  Moreover the remainder of a
pattern is *not* "treated as literal with regex-special characters
escaped": only `.` is escaped, so in `a+*` the `+` keeps its quantifier
meaning and the name `aa` matches (third conjunct), whereas under the
claim's literal reading it must not (fourth conjunct). -/
theorem patternMatcherRaises_cex :
    patMatch "x" "(*"
      = .error "Invalid regular expression: unsupported group, class, anchor or brace" ∧
    someExcluded ["(*"] "x"
      = .error "Invalid regular expression: unsupported group, class, anchor or brace" ∧
    patMatch "aa" "a+*" = .ok true ∧
    specWildcardMatch "a+*".data "aa".data = false :=
  ⟨by decide, by decide, by decide, by decide⟩

/-- Claim C7 (amended): a pattern without `*` is matched by exact string
equality and never raises (first conjunct).  A pattern containing `*` is
matched through the substituted fully-anchored regular expression, in which
only `.` is escaped; for patterns whose other characters have no
regex-special meaning, the match is total and equals the spec's
fully-anchored wildcard semantics — `*` matching zero or more characters
other than line terminators — (second conjunct); for patterns with
regex-special characters the regex construction can throw a `SyntaxError`
(the counterexample), which in `ContentCollector` aborts the enclosing
directory's loop rather than degrading to a never-matching literal. -/
theorem patternMatcher_amended :
    (∀ name pattern : String, containsChar pattern '*' = false →
        patMatch name pattern = .ok (name == pattern)) ∧
    (∀ name pattern : String,
        (∀ c ∈ pattern.data, regexMeta c = false) →
        (∀ c ∈ name.data, lineTerminator c = false) →
        minimatchE name pattern
          = .ok (specWildcardMatch pattern.data name.data)) := by
  constructor
  · intro name pattern h
    unfold patMatch
    rw [h]
    rfl
  · intro name pattern hclean hnolt
    unfold minimatchE
    rw [parseBody_substChars _ hclean]
    have : jsTest (compileGlob pattern.data) name.data
        = specWildcardMatch pattern.data name.data := by
      unfold jsTest specWildcardMatch
      rw [compileGlob_length]
      exact rmatch_spec_lockstep _ pattern.data name.data hnolt
    rw [Except.map, this]

/-- Claim C7 (witness). -/
theorem patternMatcher_amended_witness :
    (patMatch "a.txt" "node_modules" = .ok ("a.txt" == "node_modules")) ∧
    (minimatchE "a.txt" "*.txt"
      = .ok (specWildcardMatch "*.txt".data "a.txt".data)) := by
  constructor
  · exact patternMatcher_amended.1 "a.txt" "node_modules" (by decide)
  · exact patternMatcher_amended.2 "a.txt" "*.txt" (by decide) (by decide)

theorem insertDescNat_perm (a : Nat) (l : List Nat) :
    (insertDescNat a l).Perm (a :: l) := by
  induction l with
  | nil => simp [insertDescNat]
  | cons b t ih =>
      simp only [insertDescNat]
      split
      · exact List.Perm.refl _
      · exact (List.Perm.cons b ih).trans (List.Perm.swap a b t)

theorem insertDescNat_sorted (a : Nat) (l : List Nat)
    (h : l.Pairwise (· ≥ ·)) : (insertDescNat a l).Pairwise (· ≥ ·) := by
  induction l with
  | nil => simp [insertDescNat]
  | cons b t ih =>
      simp only [insertDescNat]
      split
      · rename_i hab
        refine List.pairwise_cons.mpr ⟨?_, h⟩
        intro z hz
        rcases List.mem_cons.mp hz with hzb | hzt
        · omega
        · have hb := (List.pairwise_cons.mp h).1 z hzt
          omega
      · rename_i hab
        refine List.pairwise_cons.mpr ⟨?_, ih (List.pairwise_cons.mp h).2⟩
        intro z hz
        have hz2 : z ∈ a :: t := (insertDescNat_perm a t).mem_iff.mp hz
        rcases List.mem_cons.mp hz2 with hza | hzt
        · omega
        · exact (List.pairwise_cons.mp h).1 z hzt

theorem sortDescNat_perm (l : List Nat) : (sortDescNat l).Perm l := by
  induction l with
  | nil => exact List.Perm.refl _
  | cons a t ih =>
      simp only [sortDescNat, List.foldr_cons]
      exact ((insertDescNat_perm a _).trans (List.Perm.cons a ih))

theorem sortDescNat_sorted (l : List Nat) : (sortDescNat l).Pairwise (· ≥ ·) := by
  induction l with
  | nil => simp [sortDescNat]
  | cons a t ih =>
      simp only [sortDescNat, List.foldr_cons]
      exact insertDescNat_sorted a _ ih

theorem sortDescNat_of_sorted (l : List Nat) (h : l.Pairwise (· ≥ ·)) :
    sortDescNat l = l :=
  List.eq_of_perm_of_sorted (sortDescNat_perm l) (sortDescNat_sorted l) h

theorem sortDescNat_append_singleton (l : List Nat) (a : Nat) :
    sortDescNat (l ++ [a]) = insertDescNat a (sortDescNat l) := by
  refine List.eq_of_perm_of_sorted ?_ (sortDescNat_sorted _) ?_
  · refine (sortDescNat_perm _).trans ?_
    refine List.Perm.trans ?_ ((insertDescNat_perm a (sortDescNat l)).symm)
    refine List.Perm.trans (List.perm_append_comm) ?_
    exact List.Perm.cons a (sortDescNat_perm l).symm
  · exact insertDescNat_sorted a _ (sortDescNat_sorted l)

theorem take_insertDescNat (a : Nat) :
    ∀ (s : List Nat) (k : Nat),
      (insertDescNat a s).take k = (insertDescNat a (s.take k)).take k := by
  intro s
  induction s with
  | nil => intro k; simp
  | cons b t ih =>
      intro k
      simp only [insertDescNat]
      split
      · rename_i hab
        cases k with
        | zero => simp
        | succ m =>
            simp only [List.take_succ_cons]
            rw [show insertDescNat a (b :: t.take m) = a :: b :: t.take m from by
              simp [insertDescNat, hab]]
            simp only [List.take_succ_cons]
            cases m with
            | zero => simp
            | succ n =>
                simp only [List.take_succ_cons]
                rw [List.take_take]
                simp [Nat.min_def]
      · rename_i hab
        cases k with
        | zero => simp
        | succ m =>
            simp only [List.take_succ_cons]
            rw [show insertDescNat a (b :: t.take m) = b :: insertDescNat a (t.take m)
              from by simp [insertDescNat, hab]]
            simp only [List.take_succ_cons]
            rw [ih m]

theorem sizeDescCmp_le_iff (a b : String × Nat) :
    sizeDescCmp a b ≤ 0 ↔ a.2 ≥ b.2 := by
  unfold sizeDescCmp
  omega

theorem map_snd_sortBySize (l : List (String × Nat)) :
    (sortCmp sizeDescCmp l).map (fun p => p.2) = sortDescNat (l.map (fun p => p.2)) := by
  have hperm : ((sortCmp sizeDescCmp l).map (fun p => p.2)).Perm
      (sortDescNat (l.map (fun p => p.2))) :=
    ((sortCmp_perm sizeDescCmp l).map _).trans (sortDescNat_perm _).symm
  have h1 : ((sortCmp sizeDescCmp l).map (fun p => p.2)).Pairwise (· ≥ ·) := by
    rw [List.pairwise_map]
    have hpw := sortCmp_pairwise sizeDescCmp (fun _ => True) l (fun _ _ => trivial)
      (by intro a b h; unfold sizeDescCmp at h ⊢; omega)
      (by intro a b c _ _ _ h1 h2; unfold sizeDescCmp at h1 h2 ⊢; omega)
    refine hpw.imp ?_
    intro a b h
    exact (sizeDescCmp_le_iff a b).mp h
  have h2 : (sortDescNat (l.map (fun p => p.2))).Pairwise (· ≥ ·) :=
    sortDescNat_sorted _
  exact List.eq_of_perm_of_sorted hperm h1 h2

theorem updateLargest_length (lf : List (String × Nat)) (f : String × Nat)
    (h : lf.length ≤ 20) : (updateLargest lf f).length ≤ 20 := by
  rw [show updateLargest lf f
      = (if (lf ++ [f]).length > 20
         then (sortCmp sizeDescCmp (lf ++ [f])).take 20 else lf ++ [f]) from rfl]
  split
  · rename_i hgt
    have := List.length_take 20 (sortCmp sizeDescCmp (lf ++ [f]))
    omega
  · rename_i hle
    simp only [List.length_append, List.length_singleton] at hle ⊢
    omega

theorem foldl_updateLargest_sizes (stream : List (String × Nat)) :
    sortDescNat ((List.foldl updateLargest [] stream).map (fun p => p.2))
      = (sortDescNat (stream.map (fun p => p.2))).take 20 ∧
    (List.foldl updateLargest [] stream).length ≤ 20 := by
  induction stream using List.reverseRecOn with
  | nil => simp [sortDescNat]
  | append_singleton s p ih =>
      rcases ih with ⟨ih1, ih2⟩
      rw [List.foldl_append, List.foldl_cons, List.foldl_nil]
      set acc := List.foldl updateLargest [] s with hacc
      have hlenacc : (acc.map (fun p => p.2)).length = acc.length := List.length_map _ _
      have hup : updateLargest acc p
          = (if (acc ++ [p]).length > 20
             then (sortCmp sizeDescCmp (acc ++ [p])).take 20 else acc ++ [p]) := rfl
      constructor
      · rw [hup]
        split
        · rename_i hgt
          rw [List.map_take, map_snd_sortBySize]
          have hsorted : ((sortDescNat ((acc ++ [p]).map (fun p => p.2))).take 20).Pairwise
              (fun a b => a ≥ b) :=
            List.Pairwise.sublist (List.take_sublist _ _) (sortDescNat_sorted _)
          rw [sortDescNat_of_sorted _ hsorted]
          rw [List.map_append, List.map_singleton, sortDescNat_append_singleton, ih1]
          rw [List.map_append, List.map_singleton, sortDescNat_append_singleton]
          exact (take_insertDescNat p.2 (sortDescNat (s.map (fun p => p.2))) 20).symm
        · rename_i hle
          rw [List.map_append, List.map_singleton, sortDescNat_append_singleton, ih1]
          rw [List.map_append, List.map_singleton, sortDescNat_append_singleton]
          rw [take_insertDescNat p.2 (sortDescNat (s.map (fun p => p.2))) 20]
          have hlen1 : (insertDescNat p.2 ((sortDescNat (s.map (fun p => p.2))).take 20)).length
              ≤ 20 := by
            have hp := (insertDescNat_perm p.2
              ((sortDescNat (s.map (fun p => p.2))).take 20)).length_eq
            have hl2 : ((sortDescNat (s.map (fun p => p.2))).take 20).length = acc.length := by
              rw [← ih1]
              exact ((sortDescNat_perm _).length_eq).trans hlenacc
            simp only [List.length_cons] at hp
            simp only [List.length_append, List.length_singleton] at hle
            omega
          exact (List.take_of_length_le hlen1).symm ▸ rfl
      · rw [hup]
        split
        · rename_i hgt
          have := List.length_take 20 (sortCmp sizeDescCmp (acc ++ [p]))
          omega
        · rename_i hle
          simp only [List.length_append, List.length_singleton] at hle ⊢
          omega

theorem statsLargest_factor (fuel : Nat) :
    (∀ children readErr dirPath opts depth st,
        (statsDirF fuel children readErr dirPath opts depth st).largestFiles
          = List.foldl updateLargest st.largestFiles
              (visitedDirF fuel children readErr dirPath opts depth)) ∧
    (∀ children items dirPath opts depth st,
        (statsItemsF fuel children items dirPath opts depth st).largestFiles
          = List.foldl updateLargest st.largestFiles
              (visitedItemsF fuel children items dirPath opts depth)) := by
  induction fuel with
  | zero =>
      constructor
      · intro children readErr dirPath opts depth st
        rfl
      · intro children items dirPath opts depth st
        rfl
  | succ f ih =>
      obtain ⟨ihD, ihI⟩ := ih
      constructor
      · intro children readErr dirPath opts depth st
        simp only [statsDirF, visitedDirF]
        by_cases hguard : opts.maxDepth ≥ 0 ∧ (depth : Int) > opts.maxDepth
        · rw [if_pos hguard, if_pos hguard]
          rfl
        · rw [if_neg hguard, if_neg hguard]
          cases readErr with
          | none => exact ihI _ _ _ _ _ _
          | some msg => rfl
      · intro children items dirPath opts depth st
        cases items with
        | nil => rfl
        | cons item rest =>
            simp only [statsItemsF, visitedItemsF]
            by_cases h1 : (!opts.showHidden && startsWithDot item) = true
            · rw [if_pos h1, if_pos h1]
              exact ihI _ _ _ _ _ _
            · rw [if_neg h1, if_neg h1]
              by_cases h2 : opts.exclude.contains item = true
              · rw [if_pos h2, if_pos h2]
                exact ihI _ _ _ _ _ _
              · rw [if_neg h2, if_neg h2]
                cases hstat : childStat children item with
                | none =>
                    show (statsItemsF f children rest dirPath opts depth _).largestFiles
                      = List.foldl updateLargest st.largestFiles
                          (visitedItemsF f children rest dirPath opts depth)
                    exact ihI _ _ _ _ _ _
                | some e =>
                    cases e with
                    | broken msg =>
                        show (statsItemsF f children rest dirPath opts depth
                            _).largestFiles
                          = List.foldl updateLargest st.largestFiles
                              (visitedItemsF f children rest dirPath opts depth)
                        exact ihI _ _ _ _ _ _
                    | file sz content readErrF =>
                        show (statsItemsF f children rest dirPath opts depth
                            _).largestFiles
                          = List.foldl updateLargest
                              (updateLargest st.largestFiles
                                (dirPath ++ "/" ++ item, sz))
                              (visitedItemsF f children rest dirPath opts depth)
                        exact ihI _ _ _ _ _ _
                    | dir sub subErr =>
                        show (statsItemsF f children rest dirPath opts depth
                            (statsDirF f sub subErr (dirPath ++ "/" ++ item) opts
                              (depth + 1)
                              { st with totalDirectories :=
                                  st.totalDirectories + 1 })).largestFiles
                          = List.foldl updateLargest
                              ({ st with totalDirectories :=
                                  st.totalDirectories + 1 } : DirStats).largestFiles
                              (visitedDirF f sub subErr (dirPath ++ "/" ++ item) opts
                                  (depth + 1)
                                ++ visitedItemsF f children rest dirPath opts depth)
                        rw [List.foldl_append]
                        rw [ihI children rest dirPath opts depth
                          (statsDirF f sub subErr (dirPath ++ "/" ++ item) opts
                            (depth + 1)
                            { st with totalDirectories := st.totalDirectories + 1 })]
                        rw [ihD sub subErr (dirPath ++ "/" ++ item) opts (depth + 1)
                          { st with totalDirectories := st.totalDirectories + 1 }]

/-- Claim C8: throughout statistics aggregation the largest-files list is
kept bounded by the retention ceiling of twenty — every update of a
≤ 20-element list stays ≤ 20 elements (first conjunct, the re-sort-and-
truncate of lines 643-647), and the aggregated list itself is so bounded
(second conjunct) — and the reported display selection (sort descending,
take ten, lines 552-554) carries exactly the ten largest sizes among all
visited files, for every tree (in particular every tree with fewer than
10,000 files; under ties the top-ten is compared as the multiset of sizes,
which is what "the true top-10 files by size" determines) (third
conjunct). -/
theorem largestFilesTopTen :
    (∀ (lf : List (String × Nat)) (f : String × Nat),
        lf.length ≤ 20 → (updateLargest lf f).length ≤ 20) ∧
    (∀ root dirPath opts,
        (statsRoot root dirPath opts).largestFiles.length ≤ 20) ∧
    (∀ root dirPath opts,
        (displayLargest (statsRoot root dirPath opts).largestFiles).map (fun p => p.2)
          = (sortDescNat ((visitedRoot root dirPath opts).map (fun p => p.2))).take 10) := by
  refine ⟨updateLargest_length, ?_, ?_⟩
  · intro root dirPath opts
    cases root with
    | none => simp [statsRoot, initStats]
    | some e =>
        cases e with
        | file sz content readErrF => simp [statsRoot, initStats]
        | broken msg => simp [statsRoot, initStats]
        | dir children readErr =>
            show (statsDirF (childrenFuel children) children readErr dirPath opts 0
              initStats).largestFiles.length ≤ 20
            rw [(statsLargest_factor (childrenFuel children)).1 children readErr dirPath
              opts 0 initStats]
            exact (foldl_updateLargest_sizes _).2
  · intro root dirPath opts
    cases root with
    | none => simp [statsRoot, visitedRoot, initStats, displayLargest, sortCmp, sortDescNat]
    | some e =>
        cases e with
        | file sz content readErrF =>
            simp [statsRoot, visitedRoot, initStats, displayLargest, sortCmp, sortDescNat]
        | broken msg =>
            simp [statsRoot, visitedRoot, initStats, displayLargest, sortCmp, sortDescNat]
        | dir children readErr =>
            show (displayLargest (statsDirF (childrenFuel children) children readErr
                dirPath opts 0 initStats).largestFiles).map (fun p => p.2)
              = (sortDescNat ((visitedDirF (childrenFuel children) children readErr
                  dirPath opts 0).map (fun p => p.2))).take 10
            rw [(statsLargest_factor (childrenFuel children)).1 children readErr dirPath
              opts 0 initStats]
            unfold displayLargest
            rw [List.map_take, map_snd_sortBySize]
            rw [show initStats.largestFiles = ([] : List (String × Nat)) from rfl]
            rw [(foldl_updateLargest_sizes _).1]
            rw [List.take_take]
            rfl

/-- Claim C8 (witness). -/
theorem largestFilesTopTen_witness :
    ([("r/a.txt", 5)] : List (String × Nat)).length ≤ 20 ∧
    (updateLargest [("r/a.txt", 5)] ("r/b.txt", 7)).length ≤ 20 := by
  constructor
  · decide
  · exact largestFilesTopTen.1 [("r/a.txt", 5)] ("r/b.txt", 7) (by decide)

end RepoSketch
